import Mathlib

/-!
# Verification of the jmon-format core (jmon-tone / jmon-midi / jmon-abc)

Shallow embedding of the jmonlabs/jmon-format JavaScript sources:

* `jmonTone` core (src/unnamed/part_003): note-name conversion, `normalize`,
  `convertNotes`, `validate`, `getTempoAtTime`, `_parseTimeString`;
* `JmonToMidi` (src/jmon-midi.js): track building (`convertToMidi`, lines
  225-360), `createMidiFromTracks`, `numberToBytes`, `encodeVariableLength`,
  `noteNameToMidiNumber`;
* `JmonToAbc` (src/jmon-abc.js): `generateAbcHeader`, `convertKeySignature`,
  `durationToAbcNotation`.

Modelling conventions, used throughout:

* JavaScript numbers are modelled as rationals (`ℚ`); the sources use them
  as exact decimal quantities (bpm, beats, velocities) and the claims under
  verification are about that arithmetic, not about binary floating point.
  Bitwise operators (`>>>`, `&`, `|`), which act on 32-bit integers in JS,
  are modelled with explicit `% 2 ^ 32` / `% 256` truncation.
* A possibly-absent object property is an `Option`; JS truthiness tests
  (`!x`, `x || d`) are modelled by the `strFalsy`/`numFalsy`/`jsStrOr`/
  `jsNumOr` helpers (absent, `0` and `""` are falsy; objects and arrays are
  always truthy).
* `Math.round` is `round` (both are round-half-up: `⌊x + 1/2⌋`);
  `Math.floor` is `⌊·⌋`; JS number-to-string conversion is exact for
  integers (the only case the sources rely on) via `jsNumToString`.
* Strings are parsed character-by-character; the regular expressions of the
  sources (`/^\d+[nmhqwst]$/`, `/^([A-G])(#|b)?(-?\d+)$/`,
  `/^[A-G](#|b)?m?$/`) are implemented as explicit character-list matchers.
* `parseFloat` is modelled on optionally-signed decimal literals (the only
  shapes produced and consumed by this code base); `NaN` is `none`.
-/

set_option maxHeartbeats 1000000

namespace Jmon

/-! ## JavaScript value helpers -/

/-- A JS value that is either a number or a string (the two shapes taken by
`time`/`duration` fields in jmon objects). -/
inductive JVal where
  | num (q : ℚ)
  | str (s : String)
deriving DecidableEq

/-- A JS value in a `note`/`pitch` position: a number (MIDI pitch), a string
(note name) or an array of those (chord).  Deeper nesting, which every
consumer in the sources merely skips over, is not modelled. -/
inductive NoteVal where
  | num (q : ℚ)
  | str (s : String)
  | arr (l : List JVal)
deriving DecidableEq

/-- JS truthiness of an optional string: `undefined` and `""` are falsy. -/
def strFalsy : Option String → Bool
  | none => true
  | some s => s == ""

/-- JS truthiness of an optional number: `undefined` and `0` are falsy
(`NaN`, which is also falsy, is outside the rational model). -/
def numFalsy : Option ℚ → Bool
  | none => true
  | some q => q == 0

/-- JS truthiness of an optional number-or-string value. -/
def jvalFalsy : Option JVal → Bool
  | none => true
  | some (.num q) => q == 0
  | some (.str s) => s == ""

/-- JS truthiness of an optional note value; arrays are always truthy. -/
def noteValFalsy : Option NoteVal → Bool
  | none => true
  | some (.num q) => q == 0
  | some (.str s) => s == ""
  | some (.arr _) => false

/-- `a || d` for strings: the JS default-on-falsy idiom. -/
def jsStrOr (a : Option String) (d : String) : String :=
  match a with
  | some s => if s = "" then d else s
  | none => d

/-- `a || d` for numbers: the JS default-on-falsy idiom (`0` falls through). -/
def jsNumOr (a : Option ℚ) (d : ℚ) : ℚ :=
  match a with
  | some q => if q = 0 then d else q
  | none => d

/-- `a || b` for optional strings, keeping absence: used for chained
fallbacks like `input.author || input.composer`. -/
def strTruthy (a : Option String) : Option String :=
  match a with
  | some s => if s = "" then none else some s
  | none => none

/-- `a || b` for optional numbers, keeping absence. -/
def numTruthy (a : Option ℚ) : Option ℚ :=
  match a with
  | some q => if q = 0 then none else some q
  | none => none

/-- JS `ToIntegerOrInfinity` truncation of a number: toward zero. -/
def jsTrunc (q : ℚ) : ℤ :=
  if 0 ≤ q then ⌊q⌋ else ⌈q⌉

/-- JS `ToUint32` of a number (used by `>>>`, `&`, `|`). -/
def jsToUint32 (q : ℚ) : ℕ :=
  ((jsTrunc q) % (2 ^ 32 : ℤ)).toNat

/-- JS `ToUint8`, the conversion applied when a number is stored into a
`Uint8Array`. -/
def jsToUint8 (q : ℚ) : ℕ :=
  ((jsTrunc q) % (256 : ℤ)).toNat

/-- JS number-to-string conversion, exact on integers (the only values this
code base turns into strings; non-integral rationals are printed in Lean's
`num/den` form rather than JS decimal form). -/
def jsNumToString (q : ℚ) : String :=
  if q.den = 1 then toString q.num else toString q

/-- Value of a decimal-digit string, as `parseInt` computes it on an
all-digit input (`foldl` over the digits, most significant first). -/
def digitsVal (cs : List Char) : ℕ :=
  cs.foldl (fun a c => a * 10 + (c.toNat - 48)) 0

/-- Core of JS `parseFloat` on an optionally-signed decimal literal
(`-?\d*(\.\d*)?` with at least one digit); `none` models `NaN`.
Exponents and leading whitespace, which never occur in this code base's
inputs, are not modelled. -/
def parseFloatQ (cs : List Char) : Option ℚ :=
  let neg : Bool := cs.head?.getD ' ' == '-'
  let rest : List Char :=
    if cs.head?.getD ' ' = '-' ∨ cs.head?.getD ' ' = '+' then cs.tail else cs
  let intPart := rest.takeWhile Char.isDigit
  let rest2 := rest.drop intPart.length
  let fracPart :=
    if rest2.head?.getD ' ' = '.' then rest2.tail.takeWhile Char.isDigit else []
  if intPart = [] ∧ fracPart = [] then none
  else
    let v : ℚ := (digitsVal intPart : ℚ) + (digitsVal fracPart : ℚ) / (10 ^ fracPart.length)
    some (if neg then -v else v)

/-- `split(':')` on a character list, JS semantics (`"a:b" ↦ ["a","b"]`,
`":" ↦ ["",""]`). -/
def splitColon : List Char → List (List Char)
  | [] => [[]]
  | c :: rest =>
    let r := splitColon rest
    if c = ':' then [] :: r
    else
      match r with
      | h :: t => (c :: h) :: t
      | [] => [[c]]

/-! ## Time resolver (`jmonTone._parseTimeString`, part_003 lines 1168-1233) -/

/-- The unit characters accepted by the `/^\d+[nmhqwst]$/` branch. -/
def unitChars : List Char := ['n', 'm', 'h', 'q', 'w', 't', 's']

/-- Test for the `/^\d+[nmhqwst]$/` regex: at least one digit followed by
exactly one unit character. -/
def isNoteValueStr (cs : List Char) : Bool :=
  !cs.dropLast.isEmpty && cs.dropLast.all Char.isDigit
    && unitChars.contains (cs.getLast?.getD ' ')

/-- The string branch of `jmonTone._parseTimeString`: note-value tokens,
`bars:beats:ticks`, then `parseFloat` fallback (unparseable input yields
`0`). -/
def parseTimeChars (cs : List Char) (bpm : ℚ) : ℚ :=
  if isNoteValueStr cs then
    let noteValue : ℕ := digitsVal cs.dropLast
    let beatLength : ℚ := 60 / bpm
    match cs.getLast?.getD ' ' with
    | 'n' => beatLength * (4 / (noteValue : ℚ))
    | 'm' => beatLength * 4 * (noteValue : ℚ)
    | 'h' => beatLength * 2 * (noteValue : ℚ)
    | 'q' => beatLength * (noteValue : ℚ)
    | 'w' => beatLength * 4 * (noteValue : ℚ)
    | 't' => beatLength * (4 / (noteValue : ℚ)) * (2 / 3)
    | 's' => beatLength * (1 / 4) * (noteValue : ℚ)
    | _ => beatLength
  else if cs.contains ':' then
    let parts := splitColon cs
    let bars := (parseFloatQ (parts.getD 0 [])).getD 0
    let beats := (parseFloatQ (parts.getD 1 [])).getD 0
    let ticks := (parseFloatQ (parts.getD 2 [])).getD 0
    let beatLength : ℚ := 60 / bpm
    let barLength := beatLength * 4
    let tickLength := beatLength / 480
    bars * barLength + beats * beatLength + ticks * tickLength
  else
    (parseFloatQ cs).getD 0

/-- The argument of `_parseTimeString`: a JS number or a string. -/
abbrev TimeInput := JVal

/-- `jmonTone._parseTimeString(timeString, bpm = 120)`: numbers pass
through, strings are parsed by `parseTimeChars`. -/
def parseTimeString (t : TimeInput) (bpm : ℚ) : ℚ :=
  match t with
  | .num x => x
  | .str s => parseTimeChars s.data bpm

/-- `_parseTimeString` on a possibly-absent field (`undefined` is neither a
number nor a string, so the source returns `0`), as used by the encoders'
`parseTime` helpers. -/
def jsParseTime (v : Option JVal) (bpm : ℚ) : ℚ :=
  match v with
  | some (.num q) => q
  | some (.str s) => parseTimeChars s.data bpm
  | none => 0

/-! ## Note-name conversion (`jmonTone`, part_003 lines 27-69) -/

/-- Chromatic note names used by `midiNoteToNoteName` (the source's
`noteNames` array, split here into the two tetrachord halves). -/
def noteNames : List String :=
  ["C", "C#", "D", "D#", "E", "F"] ++ ["F#", "G", "G#", "A", "A#", "B"]

/-- `jmonTone.midiNoteToNoteName`: out-of-range input falls back to `"C4"`.
The source indexes `noteNames` with `midiNote % 12`; the model is exact for
integral MIDI numbers (a fractional in-range number makes the JS source
produce garbage via an `undefined` array read, which no caller does). -/
def midiNoteToNoteName (m : ℚ) : String :=
  if ¬(0 ≤ m ∧ m ≤ 127) then "C4"
  else
    let octave : ℤ := ⌊m / 12⌋ - 1
    let idx : ℤ := ⌊m - 12 * (⌊m / 12⌋ : ℚ)⌋
    (noteNames.getD idx.toNat "undefined") ++ toString octave

/-- Result of matching `/^([A-G])(#|b)?(-?\d+)$/`. -/
structure ParsedNoteName where
  letter : Char
  accidental : Option Char
  octave : ℤ
deriving DecidableEq

/-- The `/^([A-G])(#|b)?(-?\d+)$/` matcher of `noteNameToMidiNote`. -/
def parseNoteName (s : String) : Option ParsedNoteName :=
  match s.data with
  | [] => none
  | c :: rest =>
    if 'A' ≤ c ∧ c ≤ 'G' then
      let accRest : Option Char × List Char :=
        match rest with
        | '#' :: r => (some '#', r)
        | 'b' :: r => (some 'b', r)
        | r => (none, r)
      match accRest.2 with
      | '-' :: ds =>
        if ds ≠ [] ∧ ds.all Char.isDigit then
          some ⟨c, accRest.1, -(digitsVal ds : ℤ)⟩
        else none
      | ds =>
        if ds ≠ [] ∧ ds.all Char.isDigit then
          some ⟨c, accRest.1, (digitsVal ds : ℤ)⟩
        else none
    else none

/-- Semitone value of a note letter (`{C:0, D:2, E:4, F:5, G:7, A:9, B:11}`). -/
def noteLetterValue : Char → ℤ
  | 'C' => 0
  | 'D' => 2
  | 'E' => 4
  | 'F' => 5
  | 'G' => 7
  | 'A' => 9
  | 'B' => 11
  | _ => 0

/-- `jmonTone.noteNameToMidiNote`: regex parse, semitone arithmetic,
accidental adjustment, then clamping with `Math.max(0, Math.min(127, ·))`;
any non-matching string yields the default `60`. -/
def noteNameToMidiNote (s : String) : ℤ :=
  match parseNoteName s with
  | none => 60
  | some p =>
    let base := noteLetterValue p.letter + (p.octave + 1) * 12
    let adjusted :=
      match p.accidental with
      | some '#' => base + 1
      | some 'b' => base - 1
      | _ => base
    max 0 (min 127 adjusted)

/-! ## The composition data model, as read by `jmonTone.validate`
(part_003 lines 248-397).  Every field a jmon object may or may not carry is
an `Option`. -/

/-- An `audioGraph` entry (`{id, type, options, ...}`). -/
structure GraphNode where
  id : Option String
  type : Option String
  options : Option Unit
deriving DecidableEq

/-- A modulation event attached to a note. -/
structure Modulation where
  type : Option String
  controller : Option ℚ
  value : Option ℚ
  time : Option ℚ
deriving DecidableEq

/-- A note event (`{note, time, duration, velocity, channel, modulations}`). -/
structure Note where
  note : Option NoteVal
  time : Option JVal
  duration : Option JVal
  velocity : Option ℚ
  channel : Option ℚ
  modulations : Option (List Modulation)
deriving DecidableEq

/-- A sequence (`{label, synth, notes, synthRef, midiChannel}`).  The content
of an inline `synth` spec is never inspected by the functions modelled here,
only its presence, hence `Option Unit`. -/
structure Sequence where
  label : Option String
  synth : Option Unit
  synthRef : Option String
  notes : Option (List Note)
  midiChannel : Option ℚ
deriving DecidableEq

/-- A `tempoMap` entry as validated (`{time, bpm}`, possibly incomplete). -/
structure TempoMapEntry where
  time : Option JVal
  bpm : Option ℚ
deriving DecidableEq

/-- Composition metadata (`{name, author, description}`). -/
structure Metadata where
  name : Option String
  author : Option String
  description : Option String
deriving DecidableEq

/-- A jmon composition object, with the fields read by `validate`,
`JmonToMidi.convertToMidi` and `JmonToAbc.generateAbcHeader`.  `connections`
entries are modelled as arrays of node-id strings (the sources only check
`Array.isArray` plus the length). -/
structure Composition where
  format : Option String
  version : Option String
  bpm : Option ℚ
  keySignature : Option String
  timeSignature : Option String
  metadata : Option Metadata
  audioGraph : Option (List GraphNode)
  connections : Option (List (List String))
  sequences : Option (List Sequence)
  tempoMap : Option (List TempoMapEntry)
deriving DecidableEq

/-- Accumulate per-element diagnostics over a list, threading the element
index, exactly like the `forEach((x, index) => ...)` loops of the source. -/
def withIndex (f : ℕ → α → List String) : ℕ → List α → List String
  | _, [] => []
  | i, x :: xs => f i x ++ withIndex f (i + 1) xs

/-! ## Validator (`jmonTone.validate`) -/

/-- The `validNodeTypes` enum of `validate`. -/
def validNodeTypes : List String :=
  ["Synth", "PolySynth", "MonoSynth", "AMSynth", "FMSynth", "DuoSynth",
   "PluckSynth", "NoiseSynth", "Sampler", "Filter", "AutoFilter", "Reverb",
   "FeedbackDelay", "PingPongDelay", "Delay", "Chorus", "Phaser", "Tremolo",
   "Vibrato", "AutoWah", "Distortion", "Chebyshev", "BitCrusher", "Compressor",
   "Limiter", "Gate", "FrequencyShifter", "PitchShift", "JCReverb", "Freeverb",
   "StereoWidener", "MidSideCompressor", "Destination"]

/-- Root `format` field errors. -/
def formatErrors (c : Composition) : List String :=
  if strFalsy c.format then ["Missing required field: format"]
  else if c.format ≠ some "jmonTone" then
    ["Invalid format: expected \"jmonTone\", got \"" ++ c.format.getD "" ++ "\""]
  else []

/-- Root `version` field errors. -/
def versionErrors (c : Composition) : List String :=
  if strFalsy c.version then ["Missing required field: version"] else []

/-- Root `bpm` field errors (range problems are only warnings). -/
def bpmErrors (c : Composition) : List String :=
  if numFalsy c.bpm then ["Missing required field: bpm"] else []

/-- Root `bpm` range warnings. -/
def bpmWarnings (c : Composition) : List String :=
  if numFalsy c.bpm then []
  else
    match c.bpm with
    | some b => if b < 20 ∨ b > 400 then ["BPM should be between 20-400 according to schema"] else []
    | none => []

/-- Per-node `audioGraph` errors. -/
def nodeErrors (i : ℕ) (n : GraphNode) : List String :=
  (if strFalsy n.id then ["AudioGraph node " ++ toString i ++ ": Missing required field: id"] else [])
  ++ (if strFalsy n.type then ["AudioGraph node " ++ toString i ++ ": Missing required field: type"] else [])
  ++ (if n.options = none then ["AudioGraph node " ++ toString i ++ ": Missing required field: options"] else [])

/-- Per-node `audioGraph` warnings (unknown node type). -/
def nodeWarnings (i : ℕ) (n : GraphNode) : List String :=
  let shown := match n.type with
    | some t => t
    | none => "undefined"
  if validNodeTypes.contains (n.type.getD "") then []
  else ["AudioGraph node " ++ toString i ++ ": Unknown node type \"" ++ shown ++ "\""]

/-- Per-connection errors (must have exactly two endpoints). -/
def connErrors (i : ℕ) (conn : List String) : List String :=
  if conn.length ≠ 2 then
    ["Connection " ++ toString i ++ ": Must be an array with exactly 2 elements [source, target]"]
  else []

/-- Per-connection dangling-endpoint warnings (only checked on well-formed
connections when an `audioGraph` is present). -/
def connWarnings (c : Composition) (i : ℕ) (conn : List String) : List String :=
  if conn.length ≠ 2 then []
  else
    match c.audioGraph with
    | none => []
    | some g =>
      let source := conn.getD 0 ""
      let target := conn.getD 1 ""
      let sourceExists := g.any fun node => node.id = some source
      let targetExists := (g.any fun node => node.id = some target) || target == "master"
      (if sourceExists then [] else
        ["Connection " ++ toString i ++ ": Source \"" ++ source ++ "\" not found in audioGraph"])
      ++ (if targetExists then [] else
        ["Connection " ++ toString i ++ ": Target \"" ++ target ++ "\" not found in audioGraph"])

/-- Per-modulation errors. -/
def modErrors (i j k : ℕ) (m : Modulation) : List String :=
  (if (match m.type with
       | none => true
       | some t => t == "" || !(["cc", "pitchBend", "aftertouch"].contains t)) then
     ["Sequence " ++ toString i ++ ", Note " ++ toString j ++ ", Modulation " ++ toString k ++ ": Invalid type"]
   else [])
  ++ (if m.value = none then
     ["Sequence " ++ toString i ++ ", Note " ++ toString j ++ ", Modulation " ++ toString k ++ ": Missing value"]
   else [])
  ++ (if m.time = none then
     ["Sequence " ++ toString i ++ ", Note " ++ toString j ++ ", Modulation " ++ toString k ++ ": Missing time"]
   else [])

/-- Per-note errors. -/
def noteErrors (i j : ℕ) (n : Note) : List String :=
  (if n.time = none then
     ["Sequence " ++ toString i ++ ", Note " ++ toString j ++ ": Missing required field: time"]
   else [])
  ++ (if noteValFalsy n.note then
     ["Sequence " ++ toString i ++ ", Note " ++ toString j ++ ": Missing required field: note"]
   else [])
  ++ (if jvalFalsy n.duration then
     ["Sequence " ++ toString i ++ ", Note " ++ toString j ++ ": Missing required field: duration"]
   else [])
  ++ (match n.channel with
      | some ch => if ch < 0 ∨ ch > 15 then
          ["Sequence " ++ toString i ++ ", Note " ++ toString j ++ ": MIDI channel must be 0-15"]
        else []
      | none => [])
  ++ (match n.modulations with
      | some mods => withIndex (modErrors i j) 0 mods
      | none => [])

/-- Per-note warnings (velocity range). -/
def noteWarnings (i j : ℕ) (n : Note) : List String :=
  match n.velocity with
  | some v => if v < 0 ∨ v > 1 then
      ["Sequence " ++ toString i ++ ", Note " ++ toString j ++ ": Velocity should be between 0.0-1.0"]
    else []
  | none => []

/-- Per-sequence errors.  Note that a sequence missing both `synth` and
`synthRef` produces a *warning* in the source, not an error. -/
def seqErrors (i : ℕ) (s : Sequence) : List String :=
  (if strFalsy s.label then ["Sequence " ++ toString i ++ ": Missing required field: label"] else [])
  ++ (match s.notes with
      | none => ["Sequence " ++ toString i ++ ": Missing or invalid notes array"]
      | some notes => withIndex (noteErrors i) 0 notes)
  ++ (match s.midiChannel with
      | some ch => if ch < 0 ∨ ch > 15 then
          ["Sequence " ++ toString i ++ ": MIDI channel must be 0-15"]
        else []
      | none => [])

/-- Per-sequence warnings. -/
def seqWarnings (i : ℕ) (s : Sequence) : List String :=
  (if s.synth = none ∧ strFalsy s.synthRef then
     ["Sequence " ++ toString i ++ ": Missing synth or synthRef definition"]
   else [])
  ++ (match s.notes with
      | none => []
      | some notes => withIndex (noteWarnings i) 0 notes)

/-- The `/^[A-G](#|b)?m?$/` test of `validate`. -/
def keySigMatch (s : String) : Bool :=
  match s.data with
  | [] => false
  | c :: rest =>
    ('A' ≤ c && c ≤ 'G')
      && (match rest with
          | [] => true
          | ['m'] => true
          | ['#'] => true
          | ['b'] => true
          | ['#', 'm'] => true
          | ['b', 'm'] => true
          | _ => false)

/-- Key-signature format errors. -/
def keySigErrors (c : Composition) : List String :=
  match c.keySignature with
  | some k => if k ≠ "" ∧ ¬ keySigMatch k then ["Invalid keySignature format"] else []
  | none => []

/-- Per-`tempoMap`-entry errors (`!time` is the JS truthiness test, so a
numeric time of `0` is reported as missing). -/
def tempoEntryErrors (i : ℕ) (e : TempoMapEntry) : List String :=
  (if jvalFalsy e.time then ["TempoMap " ++ toString i ++ ": Missing time field"] else [])
  ++ (if (match e.bpm with
          | none => true
          | some b => b == 0 || b < 20 || b > 400) then
       ["TempoMap " ++ toString i ++ ": Invalid BPM value"]
     else [])

/-- The result record of `validate`. -/
structure ValidationResult where
  success : Bool
  errors : List String
  warnings : List String
deriving DecidableEq

/-- All `audioGraph` node errors. -/
def graphErrors (c : Composition) : List String :=
  match c.audioGraph with
  | some g => withIndex nodeErrors 0 g
  | none => []

/-- All connection errors. -/
def connectionErrors (c : Composition) : List String :=
  match c.connections with
  | some conns => withIndex connErrors 0 conns
  | none => []

/-- All sequence errors, including the missing-`sequences`-array error. -/
def sequencesErrors (c : Composition) : List String :=
  match c.sequences with
  | none => ["Missing or invalid sequences array"]
  | some seqs => withIndex seqErrors 0 seqs

/-- All `tempoMap` entry errors. -/
def tempoMapErrors (c : Composition) : List String :=
  match c.tempoMap with
  | some tm => withIndex tempoEntryErrors 0 tm
  | none => []

/-- `jmonTone.validate`: accumulates errors and warnings in source order and
reports `success` iff no error was pushed. -/
def validate (c : Composition) : ValidationResult :=
  let errors :=
    formatErrors c ++ versionErrors c ++ bpmErrors c
    ++ graphErrors c ++ connectionErrors c ++ sequencesErrors c
    ++ keySigErrors c ++ tempoMapErrors c
  let warnings :=
    bpmWarnings c
    ++ (match c.audioGraph with
        | some g => withIndex nodeWarnings 0 g
        | none => [])
    ++ (match c.connections with
        | some conns => withIndex (connWarnings c) 0 conns
        | none => [])
    ++ (match c.sequences with
        | none => []
        | some seqs => withIndex seqWarnings 0 seqs)
  ⟨errors.isEmpty, errors, warnings⟩

/-! ### The validator's acceptance predicate, stated independently of the
diagnostic strings, and the spec's own StructuralError list. -/

/-- Per-modulation acceptance. -/
def modOk (m : Modulation) : Bool :=
  !(match m.type with
    | none => true
    | some t => t == "" || !(["cc", "pitchBend", "aftertouch"].contains t))
    && m.value.isSome && m.time.isSome

/-- Per-note acceptance. -/
def noteOk (n : Note) : Bool :=
  n.time.isSome && !noteValFalsy n.note && !jvalFalsy n.duration
    && (match n.channel with
        | some ch => decide (0 ≤ ch ∧ ch ≤ 15)
        | none => true)
    && (match n.modulations with
        | some mods => mods.all modOk
        | none => true)

/-- Per-sequence acceptance.  `synth`/`synthRef` do not appear here: their
joint absence is only a warning in the source. -/
def seqOk (s : Sequence) : Bool :=
  !strFalsy s.label
    && (match s.notes with
        | none => false
        | some notes => notes.all noteOk)
    && (match s.midiChannel with
        | some ch => decide (0 ≤ ch ∧ ch ≤ 15)
        | none => true)

/-- Per-`tempoMap`-entry acceptance. -/
def tempoEntryOk (e : TempoMapEntry) : Bool :=
  !jvalFalsy e.time
    && !(match e.bpm with
         | none => true
         | some b => b == 0 || b < 20 || b > 400)

/-- The full acceptance predicate of the validator, written directly as a
conjunction of field conditions. -/
def structurallyValid (c : Composition) : Bool :=
  !strFalsy c.format && (c.format == some "jmonTone")
    && !strFalsy c.version
    && !numFalsy c.bpm
    && (c.audioGraph.getD []).all (fun n => !strFalsy n.id && !strFalsy n.type && n.options.isSome)
    && (c.connections.getD []).all (fun conn => conn.length == 2)
    && (match c.sequences with
        | none => false
        | some seqs => seqs.all seqOk)
    && (match c.keySignature with
        | some k => (k == "") || keySigMatch k
        | none => true)
    && (c.tempoMap.getD []).all tempoEntryOk

/-- The spec's StructuralError list, modelled from the spec's words:
"missing formatId/version/bpm/sequences; a sequence missing notes array or
missing both synth and synthRef; a note missing time/note/duration;
malformed connection (not exactly 2 endpoints); MIDI channel outside 0-15;
unknown modulation type."  `true` means no StructuralError condition holds. -/
def specStructuralErrorFree (c : Composition) : Bool :=
  c.format.isSome && c.version.isSome && c.bpm.isSome
    && (match c.sequences with
        | none => false
        | some seqs => seqs.all fun s =>
            s.notes.isSome && (s.synth.isSome || s.synthRef.isSome)
              && ((s.notes.getD []).all fun n =>
                    n.time.isSome && n.note.isSome && n.duration.isSome
                      && (match n.channel with
                          | some ch => decide (0 ≤ ch ∧ ch ≤ 15)
                          | none => true)
                      && ((n.modulations.getD []).all fun m =>
                            ["cc", "pitchBend", "aftertouch"].contains (m.type.getD "")))
              && (match s.midiChannel with
                  | some ch => decide (0 ≤ ch ∧ ch ≤ 15)
                  | none => true))
    && (c.connections.getD []).all (fun conn => conn.length == 2)

/-! ## Tempo map resolver (`jmonTone.getTempoAtTime`, part_003 lines 765-785) -/

/-- A fully-present tempo-map breakpoint, as consumed by `getTempoAtTime`
(the `time` may be a number or a musical time string). -/
structure TempoPoint where
  time : JVal
  bpm : ℚ
deriving DecidableEq

/-- The resolved time of a tempo-map breakpoint.  The source calls
`this._parseTimeString(tempoChange.time)` with no bpm argument, so string
times are resolved at the default 120 bpm. -/
def tempoPointTime (e : TempoPoint) : ℚ :=
  match e.time with
  | .num q => q
  | .str s => parseTimeChars s.data 120

/-- The `for ... of` loop of `getTempoAtTime`: update the effective tempo
while the entry time is `≤ time`, `break` at the first entry beyond it. -/
def tempoLoop (time : ℚ) : List TempoPoint → ℚ → ℚ
  | [], eff => eff
  | e :: rest, eff =>
    if tempoPointTime e ≤ time then tempoLoop time rest e.bpm else eff

/-- `jmonTone.getTempoAtTime(tempoMap, time, defaultBpm = 120)`. -/
def getTempoAtTime (tempoMap : List TempoPoint) (time : ℚ) (defaultBpm : ℚ := 120) : ℚ :=
  if tempoMap.isEmpty then defaultBpm
  else tempoLoop time tempoMap defaultBpm

/-! ## Notation encoder (`JmonToAbc`, src/jmon-abc.js) -/

/-- The `keyMap` table of `JmonToAbc.convertKeySignature` (an identity map
on its listed domain, written out pair-by-pair as in the source). -/
def keyMap : List (String × String) :=
  [("C", "C"), ("G", "G"), ("D", "D"), ("A", "A"), ("E", "E"), ("B", "B"),
   ("F#", "F#"), ("C#", "C#"), ("F", "F"), ("Bb", "Bb"), ("Eb", "Eb"),
   ("Ab", "Ab"), ("Db", "Db"), ("Gb", "Gb"), ("Cb", "Cb"),
   ("Am", "Am"), ("Em", "Em"), ("Bm", "Bm"), ("F#m", "F#m"), ("C#m", "C#m"),
   ("G#m", "G#m"), ("D#m", "D#m"), ("A#m", "A#m"), ("Dm", "Dm"), ("Gm", "Gm"),
   ("Cm", "Cm"), ("Fm", "Fm"), ("Bbm", "Bbm"), ("Ebm", "Ebm"), ("Abm", "Abm")]

/-- `JmonToAbc.convertKeySignature`: table lookup with `'C'` fallback. -/
def convertKeySignature (k : String) : String :=
  match keyMap.lookup k with
  | some v => v
  | none => "C"

/-- The `C:` composer line, emitted only when `metadata?.author` is truthy. -/
def abcComposerLines (c : Composition) : List String :=
  match strTruthy (c.metadata.bind Metadata.author) with
  | some a => ["C:" ++ a]
  | none => []

/-- The `N:` notes line, emitted only when `metadata?.description` is
truthy. -/
def abcNotesLines (c : Composition) : List String :=
  match strTruthy (c.metadata.bind Metadata.description) with
  | some d => ["N:" ++ d]
  | none => []

/-- `JmonToAbc.generateAbcHeader`, embedded at the granularity of emitted
lines: each `header += "...\n"` of the source contributes one list entry. -/
def generateAbcHeader (c : Composition) : List String :=
  let h := ["X:1"]
  let h := h ++ ["T:" ++ jsStrOr (c.metadata.bind Metadata.name) "Untitled"]
  let h := h ++ abcComposerLines c
  let h := h ++ abcNotesLines c
  let h := h ++ ["S:Generated from jmon format"]
  let h := h ++ ["M:" ++ jsStrOr c.timeSignature "4/4"]
  let h := h ++ ["L:1/4"]
  let h := h ++ ["Q:1/4=" ++ jsNumToString (jsNumOr c.bpm 120)]
  let h := h ++ ["K:" ++ convertKeySignature (jsStrOr c.keySignature "C")]
  h

/-- `JmonToAbc.durationToAbcNotation`: tolerance lookup (±0.1, in source
order) against the fixed ratio table, with a `round(ratio*8)/8` eighth-based
fallback. -/
def durationToAbcNotation (duration bpm : ℚ) : String :=
  let beatLength : ℚ := 60 / bpm
  let r : ℚ := duration / beatLength
  if |r - 4| < 1 / 10 then "4"
  else if |r - 2| < 1 / 10 then "2"
  else if |r - 1| < 1 / 10 then ""
  else if |r - 1 / 2| < 1 / 10 then "/2"
  else if |r - 1 / 4| < 1 / 10 then "/4"
  else if |r - 1 / 8| < 1 / 10 then "/8"
  else if |r - 3 / 2| < 1 / 10 then "3/2"
  else if |r - 3 / 4| < 1 / 10 then "3/4"
  else if |r - 3| < 1 / 10 then "3"
  else if |r - 2 / 3| < 1 / 10 then "2/3"
  else if |r - 1 / 3| < 1 / 10 then "/3"
  else
    let numerator := round (r * 8)
    if numerator = 8 then "" else toString numerator ++ "/8"

/-- The duration table of `durationToAbcNotation` as an ordered
(ratio, token) list, in the order the source checks the entries. -/
def abcDurationTable : List (ℚ × String) :=
  [(4, "4"), (2, "2"), (1, ""), (1 / 2, "/2"), (1 / 4, "/4"), (1 / 8, "/8"),
   (3 / 2, "3/2"), (3 / 4, "3/4"), (3, "3"), (2 / 3, "2/3"), (1 / 3, "/3")]

/-- First token of the table whose ratio is strictly within `0.1` of `rq`. -/
def firstMatchingToken (rq : ℚ) : List (ℚ × String) → Option String
  | [] => none
  | e :: rest => if |rq - e.1| < 1 / 10 then some e.2 else firstMatchingToken rq rest

/-- The claim's reading of the duration-suffix lookup, stated independently:
the first tolerance-band hit wins, and only ratios outside every band fall
back to the eighth-based fraction. -/
def abcDurationLookupSpec (rq : ℚ) : String :=
  (firstMatchingToken rq abcDurationTable).getD
    (if round (rq * 8) = 8 then "" else toString (round (rq * 8)) ++ "/8")

/-! ## Normalizer (`jmonTone.normalize` / `jmonTone.convertNotes`,
part_003 lines 94-241)

The normalizer accepts looser shapes than `Composition`, so it gets its own
input universe.  The output of `normalize` is itself a member of that
universe (an object carrying `format`), which is what makes idempotence a
statement at all.  The `frequency` branch of `convertNotes` (note pitch from
a frequency via `Math.log2`) is irrational and outside the rational model;
no claim under verification touches it. -/

/-- An input note object, with every property `convertNotes` reads or
writes. -/
structure RawNote where
  pitch : Option NoteVal
  note : Option NoteVal
  time : Option JVal
  start : Option JVal
  duration : Option JVal
  length : Option JVal
  velocity : Option JVal
  volume : Option JVal
  channel : Option JVal
  modulations : Option (List Modulation)
deriving DecidableEq

/-- An entry of a notes array: an object, or some non-object value (which
`convertNotes` maps to the bare defaults). -/
inductive RawNoteItem where
  | obj (n : RawNote)
  | other
deriving DecidableEq

/-- A value in a notes position: an array of note items, or some truthy
non-array value (for which `convertNotes` returns `[]`). -/
inductive NotesVal where
  | arr (l : List RawNoteItem)
  | notArr
deriving DecidableEq

/-- An input sequence object for the `sequences`/`parts` branch. -/
structure RawSeq where
  label : Option String
  name : Option String
  synthRef : Option String
  notes : Option NotesVal
deriving DecidableEq

/-- An entry of a `sequences`/`parts` array: a sequence object or a bare
array of notes (for which `seq.notes || seq` falls back to the array
itself). -/
inductive RawSeqItem where
  | obj (s : RawSeq)
  | arrNotes (l : List RawNoteItem)
deriving DecidableEq

/-- A value in a `sequences`/`parts` position. -/
inductive SeqsVal where
  | arr (l : List RawSeqItem)
  | notArr
deriving DecidableEq

/-- `metadata` as the normalizer builds it. -/
structure MetaVal where
  name : Option String
  author : Option String
deriving DecidableEq

/-- An object in the normalizer's input universe: every property that
`normalize` reads, plus every property its output carries. -/
structure NormObj where
  format : Option String
  version : Option String
  bpm : Option ℚ
  tempo : Option ℚ
  title : Option String
  name : Option String
  author : Option String
  composer : Option String
  key : Option String
  keySignature : Option String
  metadata : Option MetaVal
  audioGraph : Option (List GraphNode)
  connections : Option (List (List String))
  tracks : Option (List (String × NotesVal))
  sequences : Option SeqsVal
  parts : Option SeqsVal
  notes : Option NotesVal
  melody : Option NotesVal
deriving DecidableEq

/-- The normalizer's input: a bare array of notes or an object. -/
inductive NormInput where
  | arr (l : List RawNoteItem)
  | obj (o : NormObj)
deriving DecidableEq

/-- `input.format` (arrays have no such property). -/
def formatOf : NormInput → Option String
  | .arr _ => none
  | .obj o => o.format

/-- `input.title`. -/
def titleOf : NormInput → Option String
  | .arr _ => none
  | .obj o => o.title

/-- `input.name`. -/
def nameOf : NormInput → Option String
  | .arr _ => none
  | .obj o => o.name

/-- `input.author`. -/
def authorOf : NormInput → Option String
  | .arr _ => none
  | .obj o => o.author

/-- `input.composer`. -/
def composerOf : NormInput → Option String
  | .arr _ => none
  | .obj o => o.composer

/-- `input.bpm`. -/
def bpmOf : NormInput → Option ℚ
  | .arr _ => none
  | .obj o => o.bpm

/-- `input.tempo`. -/
def tempoOf : NormInput → Option ℚ
  | .arr _ => none
  | .obj o => o.tempo

/-- `input.key`. -/
def keyOf : NormInput → Option String
  | .arr _ => none
  | .obj o => o.key

/-- `input.keySignature`. -/
def keySigOf : NormInput → Option String
  | .arr _ => none
  | .obj o => o.keySignature

/-- Conversion of one note by `convertNotes`: start from the defaults
`{time: 0, duration: "4n", velocity: 0.8}` and reconcile the pitch, time,
duration and velocity fields; non-objects keep the bare defaults. -/
def convertNoteItem : RawNoteItem → RawNoteItem
  | .other =>
    .obj { pitch := none, note := none,
           time := some (.num 0), start := none,
           duration := some (.str "4n"), length := none,
           velocity := some (.num (4 / 5)), volume := none,
           channel := none, modulations := none }
  | .obj n =>
    let noteField : Option NoteVal :=
      match n.pitch with
      | some (.num q) => some (.str (midiNoteToNoteName q))
      | some v => some v
      | none =>
        match n.note with
        | some v => some v
        | none => none
    let timeField : JVal :=
      match n.time with
      | some (.num q) =>
        let bars : ℤ := ⌊q / 4⌋
        let beats : ℚ := q - 4 * ((jsTrunc (q / 4) : ℤ) : ℚ)
        .str (toString bars ++ ":" ++ jsNumToString beats ++ ":0")
      | some v => v
      | none =>
        match n.start with
        | some v => v
        | none => .num 0
    let durField : JVal :=
      match n.duration with
      | some (.num q) =>
        if q = 1 / 4 then .str "16n"
        else if q = 1 / 2 then .str "8n"
        else if q = 1 then .str "4n"
        else if q = 2 then .str "2n"
        else if q = 4 then .str "1n"
        else .str (jsNumToString q ++ "n")
      | some v => v
      | none =>
        match n.length with
        | some v => v
        | none => .str "4n"
    let velField : JVal :=
      match n.velocity with
      | some (.num v) => .num (if v > 1 then v / 127 else v)
      | some _ => .num (4 / 5)
      | none =>
        match n.volume with
        | some v => v
        | none => .num (4 / 5)
    .obj { pitch := none, note := noteField,
           time := some timeField, start := none,
           duration := some durField, length := none,
           velocity := some velField, volume := none,
           channel := n.channel, modulations := n.modulations }

/-- `jmonTone.convertNotes`: non-arrays yield `[]`, arrays are mapped
item-by-item. -/
def convertNotes : NotesVal → List RawNoteItem
  | .arr l => l.map convertNoteItem
  | .notArr => []

/-- Conversion of one `sequences`/`parts` item by the normalizer's third
branch (`label || name ||` sequence index, `synthRef || "synth"`,
`convertNotes(seq.notes || seq)`). -/
def convertSeqItem (i : ℕ) : RawSeqItem → RawSeqItem
  | .obj s =>
    .obj { label := some (jsStrOr s.label (jsStrOr s.name ("sequence" ++ toString i))),
           name := none,
           synthRef := some (jsStrOr s.synthRef "synth"),
           notes := some (.arr (convertNotes (s.notes.getD .notArr))) }
  | .arrNotes l =>
    .obj { label := some ("sequence" ++ toString i),
           name := none,
           synthRef := some "synth",
           notes := some (.arr (convertNotes (.arr l))) }

/-- The fresh canonical skeleton the normalizer starts from. -/
def baseNormalized : NormObj :=
  { format := some "jmonTone", version := some "1.0", bpm := some 120,
    tempo := none, title := none, name := none, author := none,
    composer := none, key := none, keySignature := none, metadata := none,
    audioGraph := some
      [⟨some "synth", some "Synth", some ()⟩,
       ⟨some "master", some "Destination", some ()⟩],
    connections := some [["synth", "master"]],
    tracks := none, sequences := some (.arr []), parts := none,
    notes := none, melody := none }

/-- The shape-dispatch of `normalize` (array / `tracks` / `sequences|parts`
/ single-track), producing the object before the trailing metadata copy. -/
def normalizeBranch : NormInput → NormObj
  | .arr notes =>
    { baseNormalized with
      sequences := some (.arr
        [.obj { label := some "sequence", name := none, synthRef := some "synth",
                notes := some (.arr (convertNotes (.arr notes))) }]) }
  | .obj o =>
    match o.tracks with
    | some trackEntries =>
      { baseNormalized with
        metadata := some ⟨some (jsStrOr o.title "Untitled"), none⟩,
        bpm := some (jsNumOr o.bpm (jsNumOr o.tempo 120)),
        sequences := some (.arr (trackEntries.map fun e =>
          .obj { label := some e.1, name := none, synthRef := some "synth",
                 notes := some (.arr (convertNotes e.2)) })) }
    | none =>
      match o.sequences <|> o.parts with
      | some sv =>
        match sv with
        | .arr items =>
          { baseNormalized with
            sequences := some (.arr (items.enum.map fun e => convertSeqItem e.1 e.2)) }
        | .notArr => baseNormalized
      | none =>
        match o.notes <|> o.melody with
        | some (.arr l) =>
          { baseNormalized with
            sequences := some (.arr
              [.obj { label := some (jsStrOr o.title (jsStrOr o.name "sequence")),
                      name := none, synthRef := some "synth",
                      notes := some (.arr (convertNotes (.arr l))) }]) }
        | _ => baseNormalized

/-- The trailing metadata copy of `normalize` (`title`, `author|composer`,
`bpm|tempo`, `key|keySignature`, each applied only when truthy). -/
def copyMetadata (input : NormInput) (nObj : NormObj) : NormObj :=
  let n1 :=
    match strTruthy (titleOf input) with
    | some t => { nObj with metadata := some { (nObj.metadata.getD ⟨none, none⟩) with name := some t } }
    | none => nObj
  let n2 :=
    match strTruthy (authorOf input) <|> strTruthy (composerOf input) with
    | some a => { n1 with metadata := some { (n1.metadata.getD ⟨none, none⟩) with author := some a } }
    | none => n1
  let n3 :=
    match numTruthy (bpmOf input) <|> numTruthy (tempoOf input) with
    | some b => { n2 with bpm := some b }
    | none => n2
  match strTruthy (keyOf input) <|> strTruthy (keySigOf input) with
  | some k => { n3 with keySignature := some k }
  | none => n3

/-- `jmonTone.normalize`: pass an already-canonical object through
unchanged, otherwise rebuild on the canonical skeleton. -/
def normalize (input : NormInput) : NormInput :=
  if formatOf input = some "jmonTone" then input
  else .obj (copyMetadata input (normalizeBranch input))

/-- The `velocity` field of a converted note item (used to state the
per-note reconciliation claims). -/
def velocityOf : RawNoteItem → Option JVal
  | .obj n => n.velocity
  | .other => none

/-! ## MIDI encoder (`JmonToMidi`, src/jmon-midi.js)

`convertToMidi` (lines 25-360) builds a Tone.js-style object: a header
carrying the tempo list and one track object per sequence; the tempo lives
in the header, not in a track of its own.  `createMidiFromTracks`
(lines 726-826) then serializes that object: `MThd` with the *track-array
length* as the declared track count, and one `MTrk` chunk per track with the
tempo meta event prepended to the first track's payload.
`controlChanges`/`pitchBends`/`textEvents`, which `convertToMidi` also
attaches, are never read by `createMidiFromTracks` and are omitted from the
model. -/

/-- `JmonToMidi.encodeVariableLength`'s `while (value > 0)` loop, prepending
`(value & 0x7F) | 0x80` continuation bytes.  JS `>>>` works on `ToUint32`,
so the loop variable is already `< 2 ^ 32`; the fuel argument (initially the
loop value itself, which strictly dominates the iteration count) makes the
recursion structural. -/
def vlqLoop : ℕ → ℕ → List ℕ → List ℕ
  | _, 0, acc => acc
  | 0, _ + 1, acc => acc
  | fuel + 1, w + 1, acc =>
    vlqLoop fuel ((w + 1) / 128) ((((w + 1) % 128) ||| 0x80) :: acc)

/-- `JmonToMidi.encodeVariableLength(value)` on a non-negative integer.
Values `< 0x80` are returned as a single byte; otherwise the JS bitwise
operators truncate the value to 32 bits (`% 2 ^ 32`) before the 7-bit groups
are peeled off. -/
def encodeVariableLength (value : ℕ) : List ℕ :=
  if value < 0x80 then [value]
  else
    let v0 := value % 2 ^ 32
    vlqLoop (v0 / 128) (v0 / 128) [v0 % 128]

/-- Reassemble the integer carried by a variable-length-quantity byte list:
concatenate the low 7 bits of each byte, most significant group first. -/
def vlqDecode (bytes : List ℕ) : ℕ :=
  bytes.foldl (fun a b => a * 128 + b % 128) 0

/-- `encodeVariableLength` on a JS number that may be negative (a delta time
of unsorted events): values `< 0x80` — including all negative ones — are
returned verbatim as a single entry. -/
def encodeVariableLengthInt (v : ℤ) : List ℚ :=
  if v < 0x80 then [(v : ℚ)]
  else (encodeVariableLength v.toNat).map fun b => (b : ℚ)

/-- `JmonToMidi.numberToBytes(num, bytes)`: big-endian bytes of
`ToUint32(num)`. -/
def numberToBytes (num : ℚ) (bytes : ℕ) : List ℕ :=
  (List.range bytes).reverse.map fun i => jsToUint32 num / 2 ^ (8 * i) % 256

/-- The local `noteMap` of `JmonToMidi.noteNameToMidiNumber`. -/
def midiNoteMap : List (String × ℤ) :=
  [("C", 0), ("C#", 1), ("Db", 1), ("D", 2), ("D#", 3), ("Eb", 3), ("E", 4),
   ("F", 5), ("F#", 6), ("Gb", 6), ("G", 7), ("G#", 8), ("Ab", 8), ("A", 9),
   ("A#", 10), ("Bb", 10), ("B", 11)]

/-- The `/^([A-G][#b]?)(\d+)$/` matcher of `noteNameToMidiNumber`:
note-with-accidental prefix and a non-negative octave. -/
def parseMidiNoteName (s : String) : Option (String × ℕ) :=
  match s.data with
  | [] => none
  | c :: rest =>
    if 'A' ≤ c ∧ c ≤ 'G' then
      let accRest : String × List Char :=
        match rest with
        | '#' :: r => (String.mk [c, '#'], r)
        | 'b' :: r => (String.mk [c, 'b'], r)
        | r => (String.mk [c], r)
      if accRest.2 ≠ [] ∧ accRest.2.all Char.isDigit then
        some (accRest.1, digitsVal accRest.2)
      else none
    else none

/-- `JmonToMidi.noteNameToMidiNumber` on a string: table value plus
`(octave + 1) * 12`, with `60` as the fallback (no clamping, unlike
`jmonTone.noteNameToMidiNote`). -/
def noteNameToMidiNumber (s : String) : ℤ :=
  match parseMidiNoteName s with
  | some p =>
    match midiNoteMap.lookup p.1 with
    | some v => v + ((p.2 : ℤ) + 1) * 12
    | none => 60
  | none => 60

/-- A note object pushed into a Tone.js track by `convertToMidi` (or fed to
`createMidiFromTracks` from elsewhere, hence the optional `name`/`note`
fallback fields). -/
structure JsMidiNote where
  midi : Option ℚ
  name : Option String
  note : Option String
  time : Option ℚ
  duration : Option ℚ
  velocity : Option ℚ
  channel : Option ℚ
deriving DecidableEq

/-- A track object as built by `convertToMidi`. -/
structure JsMidiTrack where
  name : String
  channel : ℚ
  notes : List JsMidiNote
deriving DecidableEq

/-- The Tone.js MIDI header as read by `createMidiFromTracks`:
`ticksPerQuarter` (absent from `convertToMidi`'s output, defaulted to 480)
and the tempo list as (time, bpm) pairs. -/
structure JsMidiHeader where
  ticksPerQuarter : Option ℚ
  tempos : List (ℚ × ℚ)
deriving DecidableEq

/-- The Tone.js MIDI object. -/
structure JsMidi where
  header : JsMidiHeader
  tracks : List JsMidiTrack
deriving DecidableEq

/-- The per-pitch note events pushed by `convertToMidi`'s inner
`notes.forEach` (lines 269-318): a chord array yields one entry per usable
pitch, numeric pitches pass through raw, strings go through
`jmonTone.noteNameToMidiNote`, anything else is skipped with a warning. -/
def noteEvents (bpm defaultChannel : ℚ) (n : Note) : List JsMidiNote :=
  let startTime := jsParseTime n.time bpm
  let duration := jsParseTime n.duration bpm
  let velocity : ℚ :=
    match n.velocity with
    | some v => if v ≠ 0 then (round (v * 127) : ℤ) else 100
    | none => 100
  let channel := n.channel.getD defaultChannel
  let pitches : List (Option JVal) :=
    match n.note with
    | some (.arr l) => l.map some
    | some (.num q) => [some (.num q)]
    | some (.str s) => [some (.str s)]
    | none => [none]
  pitches.filterMap fun p =>
    match p with
    | some (.num q) =>
      some { midi := some q, name := none, note := none,
             time := some startTime, duration := some duration,
             velocity := some velocity, channel := some channel }
    | some (.str s) =>
      some { midi := some ((noteNameToMidiNote s : ℤ) : ℚ), name := none, note := none,
             time := some startTime, duration := some duration,
             velocity := some velocity, channel := some channel }
    | none => none

/-- One Tone.js track per sequence (`convertToMidi` lines 225-240 plus the
note loop). -/
def buildTrack (bpm : ℚ) (idx : ℕ) (seq : Sequence) : JsMidiTrack :=
  { name := jsStrOr seq.label ("Track " ++ toString (idx + 1)),
    channel := jsNumOr seq.midiChannel 0,
    notes := (seq.notes.getD []).flatMap (noteEvents bpm (jsNumOr seq.midiChannel 0)) }

/-- `JmonToMidi.convertToMidi` on a canonical composition: validate (the
source throws on failure, modelled as `none`), then assemble the header
tempo list and one track per sequence.  The source first calls
`jmonTone.normalize`, which passes canonical compositions — the domain of
this model — through unchanged. -/
def convertToMidi (c : Composition) : Option JsMidi :=
  if (validate c).success then
    some
      { header :=
          { ticksPerQuarter := none,
            tempos :=
              (0, jsNumOr c.bpm 120)
                :: (c.tempoMap.getD []).map fun e =>
                     (jsParseTime e.time (jsNumOr c.bpm 120), e.bpm.getD 0) },
        tracks := (c.sequences.getD []).enum.map fun e => buildTrack (jsNumOr c.bpm 120) e.1 e.2 }
  else none

/-- The note-on / note-off event stream of one track
(`createMidiFromTracks` lines 767-794), threading `lastTime`. -/
def trackNoteEvents (tpq : ℚ) (channel : ℚ) : List JsMidiNote → ℤ → List ℚ
  | [], _ => []
  | n :: rest, lastTime =>
    let startTime : ℤ := round (jsNumOr n.time 0 * tpq)
    let duration : ℤ := round (jsNumOr n.duration (1 / 2) * tpq)
    let deltaTime := startTime - lastTime
    let velocity : ℤ := round (jsNumOr n.velocity (4 / 5) * 127)
    let midiNote : ℚ :=
      match numTruthy n.midi with
      | some m => m
      | none => ((noteNameToMidiNumber (jsStrOr n.name (jsStrOr n.note "C4")) : ℤ) : ℚ)
    encodeVariableLengthInt deltaTime
      ++ [(((0x90 : ℕ) ||| jsToUint32 channel : ℕ) : ℚ), midiNote, (velocity : ℚ)]
      ++ encodeVariableLengthInt duration
      ++ [(((0x80 : ℕ) ||| jsToUint32 channel : ℕ) : ℚ), midiNote, 0]
      ++ trackNoteEvents tpq channel rest (startTime + duration)

/-- One `MTrk` chunk (`createMidiFromTracks` lines 750-808): optional tempo
meta event on track 0, the note events, the end-of-track marker, then the
4-byte big-endian length prefix over the `Uint8Array`-converted payload. -/
def buildTrackChunk (tpq : ℚ) (bpm : ℚ) (i : ℕ) (track : JsMidiTrack) : List ℕ :=
  let tempoEvents : List ℚ :=
    if i = 0 then
      [0, 0xFF, 0x51, 0x03] ++ (numberToBytes ((round (60000000 / bpm) : ℤ) : ℚ) 3).map fun b => (b : ℚ)
    else []
  let events := tempoEvents ++ trackNoteEvents tpq track.channel track.notes 0 ++ [0, 0xFF, 0x2F, 0]
  let trackData := events.map jsToUint8
  [0x4D, 0x54, 0x72, 0x6B] ++ numberToBytes (trackData.length : ℚ) 4 ++ trackData

/-- The bpm read off the header by `createMidiFromTracks`
(`header.tempos && header.tempos[0] ? header.tempos[0].bpm : 120`). -/
def headerBpm (tempos : List (ℚ × ℚ)) : ℚ :=
  match tempos with
  | t :: _ => t.2
  | [] => 120

/-- `JmonToMidi.createMidiFromTracks`: `MThd` header chunk (declaring
`tracks.length` as the track count) followed by the track chunks. -/
def createMidiFromTracks (midi : JsMidi) : List ℕ :=
  let tpq := jsNumOr midi.header.ticksPerQuarter 480
  let bpm := headerBpm midi.header.tempos
  let headerData :=
    [0x4D, 0x54, 0x68, 0x64, 0x00, 0x00, 0x00, 0x06, 0x00, 0x01]
      ++ numberToBytes (midi.tracks.length : ℚ) 2
      ++ numberToBytes tpq 2
  headerData ++ (midi.tracks.enum.flatMap fun e => buildTrackChunk tpq bpm e.1 e.2)

/-- The MIDI bytes produced for a composition by the
`convertToMidi` / `createMidiFromTracks` pipeline. -/
def midiFileBytes (c : Composition) : Option (List ℕ) :=
  (convertToMidi c).map createMidiFromTracks

/-- The track count declared by a MIDI byte stream: the big-endian 16-bit
field at offsets 10-11 of the `MThd` chunk. -/
def declaredTrackCount (bytes : List ℕ) : ℕ :=
  256 * bytes.getD 10 0 + bytes.getD 11 0

/-! ## General list helpers -/

/-- `isEmpty` distributes over append. -/
theorem isEmpty_append (a b : List α) : (a ++ b).isEmpty = (a.isEmpty && b.isEmpty) := by
  cases a <;> simp [List.isEmpty]

/-- `withIndex` produces no diagnostics iff every element passes, whenever
the per-element diagnostics are index-independent in their emptiness. -/
theorem withIndex_isEmpty {α : Type} {f : ℕ → α → List String} {p : α → Bool}
    (hf : ∀ i x, (f i x).isEmpty = p x) :
    ∀ (i : ℕ) (l : List α), (withIndex f i l).isEmpty = l.all p := by
  intro i l
  induction l generalizing i with
  | nil => rfl
  | cons x xs ih => simp [withIndex, isEmpty_append, hf, ih]

/-! ## C10: note-name to MIDI conversion is clamped and total -/

/-- C10: `noteNameToMidiNote` always returns a value in `[0, 127]` — the
computed semitone value of a well-formed note name (any octave, including
negative) is clamped rather than returned out of range — and every
malformed string yields the default `60`. -/
theorem C10_noteNameToMidiNote_clamped :
    (∀ s : String, 0 ≤ noteNameToMidiNote s ∧ noteNameToMidiNote s ≤ 127)
    ∧ (∀ s : String, parseNoteName s = none → noteNameToMidiNote s = 60) := by
  constructor
  · intro s
    rcases h : parseNoteName s with _ | p
    · simp only [noteNameToMidiNote, h]
      exact ⟨by norm_num, by norm_num⟩
    · simp only [noteNameToMidiNote, h]
      exact ⟨le_max_left 0 _, max_le (by norm_num) (min_le_left _ _)⟩
  · intro s h
    simp only [noteNameToMidiNote, h]

/-- Witness for C10 at concrete inputs: `"H9"` is malformed (H is not a
note letter) and yields 60; `"C-5"` (octave −5) is clamped into range. -/
theorem C10_noteNameToMidiNote_clamped_witness :
    (0 ≤ noteNameToMidiNote "C-5" ∧ noteNameToMidiNote "C-5" ≤ 127)
    ∧ parseNoteName "H9" = none ∧ noteNameToMidiNote "H9" = 60 :=
  ⟨C10_noteNameToMidiNote_clamped.1 "C-5", by decide,
   C10_noteNameToMidiNote_clamped.2 "H9" (by decide)⟩

/-! ## C9: notation duration lookup is tolerant -/

/-- Unfolding step for the tolerance lookup: one table entry peels off into
one `if`. -/
theorem getD_firstMatchingToken_cons (rq : ℚ) (fb : String) (e : ℚ × String)
    (rest : List (ℚ × String)) :
    (firstMatchingToken rq (e :: rest)).getD fb
      = if |rq - e.1| < 1 / 10 then e.2 else (firstMatchingToken rq rest).getD fb := by
  simp only [firstMatchingToken]
  split_ifs <;> simp

/-- Base case for the tolerance lookup: the empty table falls back. -/
theorem getD_firstMatchingToken_nil (rq : ℚ) (fb : String) :
    (firstMatchingToken rq []).getD fb = fb := rfl

/-- C9: the duration-suffix lookup is tolerant: the emitted token is that of
the first table entry (in the order 4, 2, 1, 1/2, 1/4, 1/8, 3/2, 3/4, 3,
2/3, 1/3) whose ratio lies strictly within 0.1 of the note's
quarter-note ratio, and only ratios outside every tolerance band fall back
to the `round(ratio·8)/8` eighth-based fraction; in particular a ratio of
1.05 still yields the empty quarter-note suffix. -/
theorem C9_durationToAbcNotation_tolerant :
    (∀ duration bpm : ℚ,
        durationToAbcNotation duration bpm = abcDurationLookupSpec (duration / (60 / bpm)))
    ∧ durationToAbcNotation (21 / 20) 60 = "" := by
  constructor
  · intro d b
    simp only [durationToAbcNotation, abcDurationLookupSpec, abcDurationTable,
      getD_firstMatchingToken_cons, getD_firstMatchingToken_nil]
  · norm_num [durationToAbcNotation, abs_lt]

/-! ## C8: the key-signature line closes the notation header -/

/-- C8: whatever optional metadata is present, the notation header lines
come in the fixed order index, title, optional composer, optional
notes/description, source tag, meter, unit note length, tempo — and the
key-signature line is always the final header line. -/
theorem C8_abcHeader_key_last :
    (∀ c : Composition,
        generateAbcHeader c
          = ["X:1", "T:" ++ jsStrOr (c.metadata.bind Metadata.name) "Untitled"]
            ++ abcComposerLines c ++ abcNotesLines c
            ++ ["S:Generated from jmon format",
                "M:" ++ jsStrOr c.timeSignature "4/4",
                "L:1/4",
                "Q:1/4=" ++ jsNumToString (jsNumOr c.bpm 120),
                "K:" ++ convertKeySignature (jsStrOr c.keySignature "C")])
    ∧ (∀ c : Composition,
        (generateAbcHeader c).getLast?
          = some ("K:" ++ convertKeySignature (jsStrOr c.keySignature "C"))) := by
  constructor
  · intro c
    simp [generateAbcHeader, List.append_assoc]
  · intro c
    simp only [generateAbcHeader]
    rw [List.getLast?_concat]

/-! ## C4: tempo lookup is a step function with last-wins ties -/

/-- `getTempoAtTime` coincides with its scan loop (the empty-map guard
returns the same default the loop would). -/
theorem getTempoAtTime_eq_loop (tm : List TempoPoint) (t d : ℚ) :
    getTempoAtTime tm t d = tempoLoop t tm d := by
  cases tm <;> simp [getTempoAtTime, tempoLoop]

/-- On a map sorted by resolved time, the scan loop returns the bpm of the
last entry at or before `t` (later array entries win ties), or the default
when no entry qualifies. -/
theorem tempoLoop_filter_getLast (t : ℚ) :
    ∀ (tm : List TempoPoint) (d : ℚ),
      tm.Pairwise (fun a b => tempoPointTime a ≤ tempoPointTime b) →
      tempoLoop t tm d
        = (((tm.filter fun e => decide (tempoPointTime e ≤ t)).getLast?).map
            TempoPoint.bpm).getD d := by
  intro tm
  induction tm with
  | nil => intro d _; rfl
  | cons e rest ih =>
    intro d hs
    rw [List.pairwise_cons] at hs
    by_cases h : tempoPointTime e ≤ t
    · rw [tempoLoop, if_pos h, ih e.bpm hs.2]
      have hfe : (e :: rest).filter (fun x => decide (tempoPointTime x ≤ t))
          = e :: rest.filter (fun x => decide (tempoPointTime x ≤ t)) := by
        simp [List.filter_cons, h]
      rw [hfe]
      cases hf : rest.filter (fun x => decide (tempoPointTime x ≤ t)) with
      | nil => simp [hf]
      | cons y ys =>
        rw [List.getLast?_cons_cons]
        cases hg : (y :: ys).getLast? with
        | none => simp at hg
        | some z => simp [hg]
    · rw [tempoLoop, if_neg h]
      have hrest : rest.filter (fun x => decide (tempoPointTime x ≤ t)) = [] := by
        rw [List.filter_eq_nil_iff]
        intro a ha
        simp only [decide_eq_true_eq]
        intro hc
        exact h (le_trans (hs.1 a ha) hc)
      simp [List.filter_cons, h, hrest]

/-- C4: on an ordered tempo map, `getTempoAtTime` returns the bpm of the
last entry whose resolved time is `≤ t` — a step function with no
interpolation, ties resolving to the last entry in array order — and the
default bpm when no entry qualifies. -/
theorem C4_getTempoAtTime_step (tm : List TempoPoint) (t d : ℚ)
    (hsorted : tm.Pairwise fun a b => tempoPointTime a ≤ tempoPointTime b) :
    getTempoAtTime tm t d
      = (((tm.filter fun e => decide (tempoPointTime e ≤ t)).getLast?).map
          TempoPoint.bpm).getD d := by
  rw [getTempoAtTime_eq_loop]
  exact tempoLoop_filter_getLast t tm d hsorted

/-- The spec's worked example: `[{time:0,bpm:120},{time:4,bpm:90},{time:8,bpm:150}]`. -/
def exampleTempoMap : List TempoPoint :=
  [⟨.num 0, 120⟩, ⟨.num 4, 90⟩, ⟨.num 8, 150⟩]

/-- Witness for C4: the spec's example map is sorted and resolves to 90 at
`t = 5`. -/
theorem C4_getTempoAtTime_step_witness :
    exampleTempoMap.Pairwise (fun a b => tempoPointTime a ≤ tempoPointTime b)
    ∧ getTempoAtTime exampleTempoMap 5 120 = 90 := by
  have hs : exampleTempoMap.Pairwise (fun a b => tempoPointTime a ≤ tempoPointTime b) := by
    decide
  exact ⟨hs, (C4_getTempoAtTime_step exampleTempoMap 5 120 hs).trans (by decide)⟩

/-! ## C5: normalization is idempotent -/

/-- Every branch of the shape dispatch keeps the canonical `format` the
skeleton starts with. -/
theorem normalizeBranch_format (x : NormInput) :
    (normalizeBranch x).format = some "jmonTone" := by
  cases x with
  | arr l => rfl
  | obj o =>
    simp only [normalizeBranch]
    cases o.tracks with
    | some _ => rfl
    | none =>
      cases o.sequences <|> o.parts with
      | some sv => cases sv <;> rfl
      | none =>
        cases hn : o.notes <|> o.melody with
        | some nv => cases nv <;> rfl
        | none => rfl

/-- The trailing metadata copy never touches `format`. -/
theorem copyMetadata_format (i : NormInput) (n : NormObj) :
    (copyMetadata i n).format = n.format := by
  simp only [copyMetadata]
  cases strTruthy (titleOf i)
    <;> cases strTruthy (authorOf i) <|> strTruthy (composerOf i)
    <;> cases numTruthy (bpmOf i) <|> numTruthy (tempoOf i)
    <;> cases strTruthy (keyOf i) <|> strTruthy (keySigOf i)
    <;> rfl

/-- Every output of `normalize` carries the canonical format identifier. -/
theorem normalize_format (x : NormInput) :
    formatOf (normalize x) = some "jmonTone" := by
  unfold normalize
  by_cases h : formatOf x = some "jmonTone"
  · rw [if_pos h]; exact h
  · rw [if_neg h]
    show (copyMetadata x (normalizeBranch x)).format = some "jmonTone"
    rw [copyMetadata_format, normalizeBranch_format]

/-- C5: normalization is idempotent — the output of `normalize` always
carries the canonical format identifier, an input already carrying it
passes through unchanged, and therefore
`normalize (normalize x) = normalize x` for every input. -/
theorem C5_normalize_idempotent :
    (∀ x : NormInput, formatOf (normalize x) = some "jmonTone")
    ∧ (∀ o : NormObj, o.format = some "jmonTone" → normalize (.obj o) = .obj o)
    ∧ (∀ x : NormInput, normalize (normalize x) = normalize x) := by
  refine ⟨normalize_format, fun o h => ?_, fun x => ?_⟩
  · unfold normalize
    rw [if_pos (show formatOf (.obj o) = some "jmonTone" from h)]
  · conv_lhs => rw [normalize]
    rw [if_pos (normalize_format x)]

/-- Witness for C5 at a concrete input: the canonical skeleton itself
passes through `normalize` unchanged, and a non-canonical input reaches a
fixed point after one pass. -/
theorem C5_normalize_idempotent_witness :
    normalize (.obj baseNormalized) = .obj baseNormalized
    ∧ normalize (normalize (.arr [])) = normalize (.arr []) :=
  ⟨C5_normalize_idempotent.2.1 baseNormalized rfl,
   C5_normalize_idempotent.2.2 (.arr [])⟩

/-! ## C7: per-note velocity/volume reconciliation -/

/-- An input note carrying only a MIDI-scale `volume` of 100. -/
def volumeOnlyNote : RawNote :=
  { pitch := none, note := none, time := none, start := none,
    duration := none, length := none, velocity := none,
    volume := some (.num 100), channel := none, modulations := none }

/-- An input note carrying a MIDI-scale `velocity` of 2. -/
def velocityTwoNote : RawNote :=
  { pitch := none, note := none, time := none, start := none,
    duration := none, length := none, velocity := some (.num 2),
    volume := none, channel := none, modulations := none }

/-- Counterexample to C7 as stated: a note whose `volume` is 100 (a number
greater than 1) is *not* divided by 127 — the normalized velocity is the
raw 100. -/
theorem C7_counterexample_volume_not_divided :
    velocityOf (convertNoteItem (.obj volumeOnlyNote)) = some (.num 100)
    ∧ (100 : ℚ) / 127 ≠ 100 := by
  constructor
  · rfl
  · norm_num

/-- C7 (amended): in per-note reconciliation only the `velocity` field is
range-normalized — a numeric velocity greater than 1 is interpreted as MIDI
0-127 and divided by 127, one at most 1 is kept, a non-numeric velocity
falls back to 0.8 — while a `volume` field (used only when `velocity` is
absent) is copied into the normalized velocity unchanged. -/
theorem C7_velocity_normalized_volume_copied (n : RawNote) :
    (∀ q : ℚ, n.velocity = some (.num q) →
        velocityOf (convertNoteItem (.obj n))
          = some (.num (if q > 1 then q / 127 else q)))
    ∧ (∀ s : String, n.velocity = some (.str s) →
        velocityOf (convertNoteItem (.obj n)) = some (.num (4 / 5)))
    ∧ (n.velocity = none → ∀ v : JVal, n.volume = some v →
        velocityOf (convertNoteItem (.obj n)) = some v) := by
  refine ⟨fun q hq => ?_, fun s hs => ?_, fun hn v hv => ?_⟩
  · simp only [convertNoteItem, velocityOf, hq]
  · simp only [convertNoteItem, velocityOf, hs]
  · simp only [convertNoteItem, velocityOf, hn, hv]

/-- Witness for C7 (amended): a numeric velocity of 2 becomes `2 / 127`, a
volume of 100 is copied unchanged. -/
theorem C7_velocity_normalized_volume_copied_witness :
    velocityOf (convertNoteItem (.obj velocityTwoNote)) = some (.num (2 / 127))
    ∧ velocityOf (convertNoteItem (.obj volumeOnlyNote)) = some (.num 100) := by
  constructor
  · have h := (C7_velocity_normalized_volume_copied velocityTwoNote).1 2 rfl
    simpa using h
  · exact (C7_velocity_normalized_volume_copied volumeOnlyNote).2.2 rfl (.num 100) rfl

/-! ## C6: the variable-length-quantity encoder -/

/-- Setting the continuation bit on a 7-bit group is addition of 128. -/
theorem lor128_eq_add (r : ℕ) (h : r < 128) : r ||| 128 = r + 128 := by
  have hfin : ∀ x : Fin 128, ((x : ℕ) ||| 128 = (x : ℕ) + 128) := by decide
  exact hfin ⟨r, h⟩

/-- The fueled VLQ loop ignores its fuel (and appends to its accumulator)
as long as the fuel dominates the loop value. -/
theorem vlqLoop_eq_append :
    ∀ (fuel w : ℕ) (acc : List ℕ), w ≤ fuel →
      vlqLoop fuel w acc = vlqLoop w w [] ++ acc := by
  intro fuel
  induction fuel using Nat.strong_induction_on with
  | _ fuel ih =>
    intro w acc hw
    match w with
    | 0 => cases fuel <;> simp [vlqLoop]
    | w' + 1 =>
      match fuel, hw with
      | f + 1, hw =>
        rw [vlqLoop]
        have hlt : (w' + 1) / 128 < w' + 1 :=
          Nat.div_lt_self (Nat.succ_pos w') (by norm_num)
        have hdiv : (w' + 1) / 128 ≤ f := by omega
        rw [ih f (Nat.lt_succ_self f) _ _ hdiv]
        have hw' : w' < f + 1 := by omega
        conv_rhs =>
          rw [show vlqLoop (w' + 1) (w' + 1) []
                = vlqLoop w' ((w' + 1) / 128) [((w' + 1) % 128) ||| 0x80] from by
              rw [vlqLoop]]
        rw [ih w' hw' _ _ (by omega)]
        simp

/-- The byte list the loop builds for a loop value `w` (the continuation
bytes of `encodeVariableLength`, most significant group first). -/
def vlqEnc (w : ℕ) : List ℕ := vlqLoop w w []

/-- Recurrence of the continuation-byte list. -/
theorem vlqEnc_succ (w : ℕ) (hw : w ≠ 0) :
    vlqEnc w = vlqEnc (w / 128) ++ [(w % 128) ||| 0x80] := by
  match w, hw with
  | w' + 1, _ =>
    show vlqLoop (w' + 1) (w' + 1) [] = _
    rw [vlqLoop]
    have hlt : (w' + 1) / 128 < w' + 1 :=
      Nat.div_lt_self (Nat.succ_pos w') (by norm_num)
    exact vlqLoop_eq_append w' ((w' + 1) / 128) _ (by omega)

/-- Every continuation byte has the 0x80 bit set and fits in one byte. -/
theorem vlqEnc_mem : ∀ (w : ℕ), ∀ b ∈ vlqEnc w, 0x80 ≤ b ∧ b < 0x100 := by
  intro w
  induction w using Nat.strong_induction_on with
  | _ w ih =>
    intro b hb
    rcases Nat.eq_zero_or_pos w with rfl | hw
    · simp [vlqEnc, vlqLoop] at hb
    · rw [vlqEnc_succ w (by omega)] at hb
      rcases List.mem_append.mp hb with h1 | h2
      · exact ih (w / 128) (Nat.div_lt_self hw (by norm_num)) b h1
      · have hb2 : b = (w % 128) ||| 0x80 := by simpa using h2
        subst hb2
        rw [lor128_eq_add _ (Nat.mod_lt _ (by norm_num))]
        have := Nat.mod_lt w (show 0 < 128 by norm_num)
        omega

/-- Folding the 7-bit groups of the continuation bytes reassembles the loop
value (with the accumulator shifted past them). -/
theorem vlqEnc_foldl : ∀ (w a : ℕ),
    (vlqEnc w).foldl (fun x b => x * 128 + b % 128) a
      = a * 128 ^ (vlqEnc w).length + w := by
  intro w
  induction w using Nat.strong_induction_on with
  | _ w ih =>
    intro a
    rcases Nat.eq_zero_or_pos w with rfl | hw
    · simp [vlqEnc, vlqLoop]
    · rw [vlqEnc_succ w (by omega)]
      rw [List.foldl_append, List.length_append]
      simp only [List.foldl_cons, List.foldl_nil, List.length_cons,
        List.length_nil]
      rw [ih (w / 128) (Nat.div_lt_self hw (by norm_num))]
      rw [lor128_eq_add _ (Nat.mod_lt _ (by norm_num))]
      have hmod : (w % 128 + 128) % 128 = w % 128 := by omega
      rw [hmod]
      have hK : (a * 128 ^ (vlqEnc (w / 128)).length + w / 128) * 128 + w % 128
          = a * (128 ^ (vlqEnc (w / 128)).length * 128) + (128 * (w / 128) + w % 128) := by
        ring
      rw [hK, Nat.div_add_mod, pow_succ]

/-- Counterexample to C6 as stated over all non-negative integers: at
`v = 2^32` the JS 32-bit shift truncates the value to `0`, the encoder
emits `[0]`, and the reconstruction is `0`, not `v`. -/
theorem C6_counterexample_32bit_truncation :
    encodeVariableLength 4294967296 = [0]
    ∧ vlqDecode (encodeVariableLength 4294967296) = 0
    ∧ (4294967296 : ℕ) ≠ 0 := by
  refine ⟨by decide, by decide, by norm_num⟩

/-- C6 (amended): for every delta time `v < 2^32` (the JS `>>>` domain),
`encodeVariableLength` emits a non-empty byte sequence carrying 7
significant bits per byte, most significant group first: the continuation
bit 0x80 is set on every byte except the last, the last byte is below 0x80,
and concatenating the low 7 bits of the bytes in order reconstructs exactly
`v`. -/
theorem C6_encodeVariableLength_sound (v : ℕ) (hv : v < 2 ^ 32) :
    encodeVariableLength v ≠ []
    ∧ (∀ b ∈ (encodeVariableLength v).dropLast, 0x80 ≤ b ∧ b < 0x100)
    ∧ (∀ lb, (encodeVariableLength v).getLast? = some lb → lb < 0x80)
    ∧ vlqDecode (encodeVariableLength v) = v := by
  by_cases h : v < 0x80
  · rw [show encodeVariableLength v = [v] from by rw [encodeVariableLength, if_pos h]]
    refine ⟨by simp, by simp, ?_, ?_⟩
    · intro lb hlb
      simp at hlb
      omega
    · show (0 * 128 + v % 128) = v
      omega
  · have hrw : encodeVariableLength v = vlqEnc (v / 128) ++ [v % 128] := by
      rw [encodeVariableLength, if_neg h]
      have hv0 : v % 2 ^ 32 = v := Nat.mod_eq_of_lt hv
      rw [hv0]
      exact vlqLoop_eq_append (v / 128) (v / 128) _ le_rfl
    rw [hrw]
    refine ⟨by simp, ?_, ?_, ?_⟩
    · rw [List.dropLast_concat]
      exact vlqEnc_mem (v / 128)
    · intro lb hlb
      rw [List.getLast?_concat] at hlb
      have hlb2 : v % 128 = lb := by simpa using hlb
      subst hlb2
      have := Nat.mod_lt v (show 0 < 128 by norm_num)
      omega
    · show (vlqEnc (v / 128) ++ [v % 128]).foldl (fun x b => x * 128 + b % 128) 0 = v
      rw [List.foldl_append]
      simp only [List.foldl_cons, List.foldl_nil]
      rw [vlqEnc_foldl]
      have hmod : v % 128 % 128 = v % 128 := by omega
      rw [hmod]
      omega

/-- Witness for C6 (amended) at `v = 640`: the encoding is `[0x85, 0x00]`
and it decodes back to 640. -/
theorem C6_encodeVariableLength_sound_witness :
    (640 : ℕ) < 2 ^ 32
    ∧ encodeVariableLength 640 = [133, 0]
    ∧ vlqDecode (encodeVariableLength 640) = 640 :=
  ⟨by norm_num, by decide, (C6_encodeVariableLength_sound 640 (by norm_num)).2.2.2⟩

/-! ## C3: the time resolver's unit formulas -/

/-- C3: for every `bpm > 0` and every `"<n><unit>"` token with positive
integer `n`, `resolveTime` returns (with `beat = 60/bpm` seconds):
n → beat·4/n, m → beat·4·n, h → beat·2·n, q → beat·n, w → beat·4·n,
t → beat·(4/n)·(2/3), s → beat·n/4; `"1:0"` at 120 bpm is 2 seconds; and a
plain number is returned as-is. -/
theorem C3_resolveTime_formulas (bpm : ℚ) (hb : 0 < bpm) (ds : List Char)
    (h1 : ds ≠ []) (h2 : ds.all Char.isDigit = true) (n : ℕ)
    (hn : digitsVal ds = n) (hpos : 1 ≤ n) :
    (parseTimeString (.str ⟨ds ++ ['n']⟩) bpm = 60 / bpm * 4 / (n : ℚ)
     ∧ parseTimeString (.str ⟨ds ++ ['m']⟩) bpm = 60 / bpm * 4 * (n : ℚ)
     ∧ parseTimeString (.str ⟨ds ++ ['h']⟩) bpm = 60 / bpm * 2 * (n : ℚ)
     ∧ parseTimeString (.str ⟨ds ++ ['q']⟩) bpm = 60 / bpm * (n : ℚ)
     ∧ parseTimeString (.str ⟨ds ++ ['w']⟩) bpm = 60 / bpm * 4 * (n : ℚ)
     ∧ parseTimeString (.str ⟨ds ++ ['t']⟩) bpm = 60 / bpm * (4 / (n : ℚ)) * (2 / 3)
     ∧ parseTimeString (.str ⟨ds ++ ['s']⟩) bpm = 60 / bpm * (n : ℚ) / 4)
    ∧ parseTimeString (.str "1:0") 120 = 2
    ∧ (∀ x : ℚ, parseTimeString (.num x) bpm = x) := by
  obtain ⟨d, dtl, rfl⟩ : ∃ d dtl, ds = d :: dtl := by
    cases ds with
    | nil => exact absurd rfl h1
    | cons d dtl => exact ⟨d, dtl, rfl⟩
  subst hn
  refine ⟨⟨?_, ?_, ?_, ?_, ?_, ?_, ?_⟩, ?_, fun x => rfl⟩
  · show parseTimeChars ((d :: dtl) ++ ['n']) bpm = _
    have hdropC : (d :: (dtl ++ ['n'])).dropLast = d :: dtl := by
      rw [← List.cons_append, List.dropLast_concat]
    have hlastC : (d :: (dtl ++ ['n'])).getLast? = some 'n' := by
      rw [← List.cons_append, List.getLast?_concat]
    have hdropA : ((d :: dtl) ++ ['n']).dropLast = d :: dtl := by
      rw [List.dropLast_concat]
    have hlastA : ((d :: dtl) ++ ['n']).getLast? = some 'n' := by
      rw [List.getLast?_concat]
    have htrue : isNoteValueStr ((d :: dtl) ++ ['n']) = true := by
      simp +decide [isNoteValueStr, hdropC, hlastC, h2, unitChars]
    rw [parseTimeChars, if_pos htrue, hdropA, hlastA]
    simp only [Option.getD_some]
    ring
  · show parseTimeChars ((d :: dtl) ++ ['m']) bpm = _
    have hdropC : (d :: (dtl ++ ['m'])).dropLast = d :: dtl := by
      rw [← List.cons_append, List.dropLast_concat]
    have hlastC : (d :: (dtl ++ ['m'])).getLast? = some 'm' := by
      rw [← List.cons_append, List.getLast?_concat]
    have hdropA : ((d :: dtl) ++ ['m']).dropLast = d :: dtl := by
      rw [List.dropLast_concat]
    have hlastA : ((d :: dtl) ++ ['m']).getLast? = some 'm' := by
      rw [List.getLast?_concat]
    have htrue : isNoteValueStr ((d :: dtl) ++ ['m']) = true := by
      simp +decide [isNoteValueStr, hdropC, hlastC, h2, unitChars]
    rw [parseTimeChars, if_pos htrue, hdropA, hlastA]
    simp only [Option.getD_some]
  · show parseTimeChars ((d :: dtl) ++ ['h']) bpm = _
    have hdropC : (d :: (dtl ++ ['h'])).dropLast = d :: dtl := by
      rw [← List.cons_append, List.dropLast_concat]
    have hlastC : (d :: (dtl ++ ['h'])).getLast? = some 'h' := by
      rw [← List.cons_append, List.getLast?_concat]
    have hdropA : ((d :: dtl) ++ ['h']).dropLast = d :: dtl := by
      rw [List.dropLast_concat]
    have hlastA : ((d :: dtl) ++ ['h']).getLast? = some 'h' := by
      rw [List.getLast?_concat]
    have htrue : isNoteValueStr ((d :: dtl) ++ ['h']) = true := by
      simp +decide [isNoteValueStr, hdropC, hlastC, h2, unitChars]
    rw [parseTimeChars, if_pos htrue, hdropA, hlastA]
    simp only [Option.getD_some]
  · show parseTimeChars ((d :: dtl) ++ ['q']) bpm = _
    have hdropC : (d :: (dtl ++ ['q'])).dropLast = d :: dtl := by
      rw [← List.cons_append, List.dropLast_concat]
    have hlastC : (d :: (dtl ++ ['q'])).getLast? = some 'q' := by
      rw [← List.cons_append, List.getLast?_concat]
    have hdropA : ((d :: dtl) ++ ['q']).dropLast = d :: dtl := by
      rw [List.dropLast_concat]
    have hlastA : ((d :: dtl) ++ ['q']).getLast? = some 'q' := by
      rw [List.getLast?_concat]
    have htrue : isNoteValueStr ((d :: dtl) ++ ['q']) = true := by
      simp +decide [isNoteValueStr, hdropC, hlastC, h2, unitChars]
    rw [parseTimeChars, if_pos htrue, hdropA, hlastA]
    simp only [Option.getD_some]
  · show parseTimeChars ((d :: dtl) ++ ['w']) bpm = _
    have hdropC : (d :: (dtl ++ ['w'])).dropLast = d :: dtl := by
      rw [← List.cons_append, List.dropLast_concat]
    have hlastC : (d :: (dtl ++ ['w'])).getLast? = some 'w' := by
      rw [← List.cons_append, List.getLast?_concat]
    have hdropA : ((d :: dtl) ++ ['w']).dropLast = d :: dtl := by
      rw [List.dropLast_concat]
    have hlastA : ((d :: dtl) ++ ['w']).getLast? = some 'w' := by
      rw [List.getLast?_concat]
    have htrue : isNoteValueStr ((d :: dtl) ++ ['w']) = true := by
      simp +decide [isNoteValueStr, hdropC, hlastC, h2, unitChars]
    rw [parseTimeChars, if_pos htrue, hdropA, hlastA]
    simp only [Option.getD_some]
  · show parseTimeChars ((d :: dtl) ++ ['t']) bpm = _
    have hdropC : (d :: (dtl ++ ['t'])).dropLast = d :: dtl := by
      rw [← List.cons_append, List.dropLast_concat]
    have hlastC : (d :: (dtl ++ ['t'])).getLast? = some 't' := by
      rw [← List.cons_append, List.getLast?_concat]
    have hdropA : ((d :: dtl) ++ ['t']).dropLast = d :: dtl := by
      rw [List.dropLast_concat]
    have hlastA : ((d :: dtl) ++ ['t']).getLast? = some 't' := by
      rw [List.getLast?_concat]
    have htrue : isNoteValueStr ((d :: dtl) ++ ['t']) = true := by
      simp +decide [isNoteValueStr, hdropC, hlastC, h2, unitChars]
    rw [parseTimeChars, if_pos htrue, hdropA, hlastA]
    simp only [Option.getD_some]
  · show parseTimeChars ((d :: dtl) ++ ['s']) bpm = _
    have hdropC : (d :: (dtl ++ ['s'])).dropLast = d :: dtl := by
      rw [← List.cons_append, List.dropLast_concat]
    have hlastC : (d :: (dtl ++ ['s'])).getLast? = some 's' := by
      rw [← List.cons_append, List.getLast?_concat]
    have hdropA : ((d :: dtl) ++ ['s']).dropLast = d :: dtl := by
      rw [List.dropLast_concat]
    have hlastA : ((d :: dtl) ++ ['s']).getLast? = some 's' := by
      rw [List.getLast?_concat]
    have htrue : isNoteValueStr ((d :: dtl) ++ ['s']) = true := by
      simp +decide [isNoteValueStr, hdropC, hlastC, h2, unitChars]
    rw [parseTimeChars, if_pos htrue, hdropA, hlastA]
    simp only [Option.getD_some]
    ring
  · show parseTimeChars ['1', ':', '0'] 120 = 2
    have hone : parseFloatQ ['1'] = some 1 := by
      simp +decide only [parseFloatQ]
      norm_num [digitsVal]
      decide
    have hzero : parseFloatQ ['0'] = some 0 := by
      simp +decide only [parseFloatQ]
      norm_num [digitsVal]
      decide
    have hnil : parseFloatQ [] = none := by
      simp +decide only [parseFloatQ]
    rw [parseTimeChars]
    rw [if_neg (by decide : ¬ (isNoteValueStr ['1', ':', '0'] = true))]
    rw [if_pos (by decide : (['1', ':', '0'].contains ':') = true)]
    have hsplit : splitColon ['1', ':', '0'] = [['1'], ['0']] := by decide
    rw [hsplit]
    simp only [List.getD, List.get?, Option.getD_some, Option.getD_none]
    rw [hone, hzero, hnil]
    norm_num

/-- Witness for C3 at a concrete token: `"8n"` at 120 bpm resolves to the
eighth-note formula, and the number `5` passes through at any bpm. -/
theorem C3_resolveTime_formulas_witness :
    parseTimeString (.str ⟨['8'] ++ ['n']⟩) 120 = 60 / 120 * 4 / ((8 : ℕ) : ℚ)
    ∧ parseTimeString (.num 5) 120 = 5 :=
  ⟨(C3_resolveTime_formulas 120 (by norm_num) ['8'] (by decide) (by decide) 8
      (by decide) (by decide)).1.1,
   (C3_resolveTime_formulas 120 (by norm_num) ['8'] (by decide) (by decide) 8
      (by decide) (by decide)).2.2 5⟩

/-! ## C2: the declared MIDI track count -/

/-- `numberToBytes` always emits exactly the requested number of bytes. -/
theorem numberToBytes_length (q : ℚ) (k : ℕ) : (numberToBytes q k).length = k := by
  simp [numberToBytes]

/-- The two-byte big-endian field, written out. -/
theorem numberToBytes_two (q : ℚ) :
    numberToBytes q 2 = [jsToUint32 q / 2 ^ (8 * 1) % 256, jsToUint32 q / 2 ^ (8 * 0) % 256] :=
  rfl

/-- `ToUint32` of a natural-number-valued JS number. -/
theorem jsToUint32_natCast (k : ℕ) : jsToUint32 (k : ℚ) = k % 2 ^ 32 := by
  have h0 : (0 : ℚ) ≤ (k : ℚ) := by positivity
  rw [jsToUint32, jsTrunc, if_pos h0, Int.floor_natCast]
  norm_num
  omega

/-- `declaredTrackCount` reads bytes 10 and 11 of the stream. -/
theorem declaredTrackCount_cons12 (a0 a1 a2 a3 a4 a5 a6 a7 a8 a9 x y : ℕ)
    (r : List ℕ) :
    declaredTrackCount
        (a0 :: a1 :: a2 :: a3 :: a4 :: a5 :: a6 :: a7 :: a8 :: a9 :: x :: y :: r)
      = 256 * x + y := rfl

/-- The `MThd` chunk of `createMidiFromTracks` declares exactly the length
of the track array as the track count. -/
theorem declaredTrackCount_createMidi (m : JsMidi) (h : m.tracks.length < 65536) :
    declaredTrackCount (createMidiFromTracks m) = m.tracks.length := by
  have hrest : createMidiFromTracks m
      = 0x4D :: 0x54 :: 0x68 :: 0x64 :: 0x00 :: 0x00 :: 0x00 :: 0x06 :: 0x00 :: 0x01 ::
        (jsToUint32 ((m.tracks.length : ℕ) : ℚ) / 2 ^ (8 * 1) % 256) ::
        (jsToUint32 ((m.tracks.length : ℕ) : ℚ) / 2 ^ (8 * 0) % 256) ::
        (numberToBytes (jsNumOr m.header.ticksPerQuarter 480) 2
          ++ m.tracks.enum.flatMap fun e =>
              buildTrackChunk (jsNumOr m.header.ticksPerQuarter 480)
                (headerBpm m.header.tempos) e.1 e.2) := rfl
  rw [hrest, declaredTrackCount_cons12, jsToUint32_natCast]
  norm_num
  omega

/-- C2 (amended): for a composition with `n` sequences accepted by the
pipeline, the 6-byte header chunk declares a track count equal to `n` — one
track per sequence, with the tempo meta event embedded in the first
sequence's track rather than in a separate tempo track. -/
theorem C2_declared_track_count (c : Composition) (seqs : List Sequence)
    (bytes : List ℕ) (h1 : c.sequences = some seqs) (h2 : seqs.length < 65536)
    (h3 : midiFileBytes c = some bytes) :
    declaredTrackCount bytes = seqs.length := by
  rw [midiFileBytes, convertToMidi] at h3
  by_cases hv : (validate c).success
  · rw [if_pos hv] at h3
    simp only [Option.map_some', Option.some.injEq] at h3
    subst h3
    rw [declaredTrackCount_createMidi]
    · simp [h1]
    · simpa [h1] using h2
  · rw [if_neg hv] at h3
    simp at h3

/-- The one-sequence composition used to exhibit the actual track count. -/
def sampleSequence : Sequence :=
  { label := some "lead", synth := some (), synthRef := none,
    notes := some [{ note := some (.str "C4"), time := some (.num 0),
                     duration := some (.str "4n"), velocity := some 1,
                     channel := none, modulations := none }],
    midiChannel := none }

/-- A minimal valid composition with exactly one sequence. -/
def sampleComposition : Composition :=
  { format := some "jmonTone", version := some "1.0", bpm := some 120,
    keySignature := none, timeSignature := none, metadata := none,
    audioGraph := none, connections := none,
    sequences := some [sampleSequence], tempoMap := none }

/-- The Tone.js-style MIDI object `convertToMidi` builds for
`sampleComposition`. -/
def sampleBuiltMidi : JsMidi :=
  { header :=
      { ticksPerQuarter := none,
        tempos :=
          (0, jsNumOr sampleComposition.bpm 120)
            :: (sampleComposition.tempoMap.getD []).map fun e =>
                 (jsParseTime e.time (jsNumOr sampleComposition.bpm 120), e.bpm.getD 0) },
    tracks := (sampleComposition.sequences.getD []).enum.map fun e =>
      buildTrack (jsNumOr sampleComposition.bpm 120) e.1 e.2 }

/-- Counterexample to C2 as stated: the one-sequence `sampleComposition`
yields a MIDI stream whose header declares 1 track, not
`sequences.length + 1 = 2`. -/
theorem C2_counterexample_no_extra_tempo_track :
    midiFileBytes sampleComposition = some (createMidiFromTracks sampleBuiltMidi)
    ∧ declaredTrackCount (createMidiFromTracks sampleBuiltMidi) = 1
    ∧ (1 : ℕ) ≠ (sampleComposition.sequences.getD []).length + 1 := by
  have hval : (validate sampleComposition).success = true := by decide
  refine ⟨?_, ?_, by decide⟩
  · rw [midiFileBytes, convertToMidi, if_pos hval]
    rfl
  · rw [declaredTrackCount_createMidi sampleBuiltMidi (by decide)]
    decide

/-- Witness for C2 (amended) at the concrete one-sequence composition: the
declared track count is exactly 1. -/
theorem C2_declared_track_count_witness :
    declaredTrackCount (createMidiFromTracks sampleBuiltMidi) = 1 := by
  have hval : (validate sampleComposition).success = true := by decide
  have hbytes : midiFileBytes sampleComposition
      = some (createMidiFromTracks sampleBuiltMidi) := by
    rw [midiFileBytes, convertToMidi, if_pos hval]
    rfl
  have h := C2_declared_track_count sampleComposition [sampleSequence]
    (createMidiFromTracks sampleBuiltMidi) rfl (by decide) hbytes
  simpa using h

/-! ## C1: the validator's acceptance condition -/

/-- Root `format` errors vanish exactly when the field is truthy and
canonical. -/
theorem formatErrors_isEmpty (c : Composition) :
    (formatErrors c).isEmpty = (!strFalsy c.format && (c.format == some "jmonTone")) := by
  rcases hf : c.format with _ | s
  · simp [formatErrors, strFalsy, hf]
  · by_cases h1 : s = ""
    · simp [formatErrors, strFalsy, hf, h1]
    · by_cases h2 : s = "jmonTone"
      · simp [formatErrors, strFalsy, hf, h1, h2]
      · simp [formatErrors, strFalsy, hf, h1, h2]

/-- Root `version` errors vanish exactly when the field is truthy. -/
theorem versionErrors_isEmpty (c : Composition) :
    (versionErrors c).isEmpty = !strFalsy c.version := by
  cases h : strFalsy c.version <;> simp [versionErrors, h]

/-- Root `bpm` errors vanish exactly when the field is truthy. -/
theorem bpmErrors_isEmpty (c : Composition) :
    (bpmErrors c).isEmpty = !numFalsy c.bpm := by
  cases h : numFalsy c.bpm <;> simp [bpmErrors, h]

/-- Per-node errors vanish exactly when the node carries truthy id/type and
an options field. -/
theorem nodeErrors_isEmpty (i : ℕ) (n : GraphNode) :
    (nodeErrors i n).isEmpty
      = (!strFalsy n.id && !strFalsy n.type && n.options.isSome) := by
  cases h1 : strFalsy n.id <;> cases h2 : strFalsy n.type <;> cases h3 : n.options
    <;> simp [nodeErrors, h1, h2, h3, isEmpty_append]

/-- The node error block vanishes exactly when every node is acceptable. -/
theorem graphErrors_isEmpty (c : Composition) :
    (graphErrors c).isEmpty
      = (c.audioGraph.getD []).all
          (fun n => !strFalsy n.id && !strFalsy n.type && n.options.isSome) := by
  rcases h : c.audioGraph with _ | g
  · simp [graphErrors, h]
  · simp only [graphErrors, h, Option.getD_some]
    exact withIndex_isEmpty nodeErrors_isEmpty 0 g

/-- Per-connection errors vanish exactly on two-endpoint connections. -/
theorem connErrors_isEmpty (i : ℕ) (conn : List String) :
    (connErrors i conn).isEmpty = (conn.length == 2) := by
  by_cases h : conn.length = 2 <;> simp [connErrors, h]

/-- The connection error block vanishes exactly when every connection has
two endpoints. -/
theorem connectionErrors_isEmpty (c : Composition) :
    (connectionErrors c).isEmpty
      = (c.connections.getD []).all (fun conn => conn.length == 2) := by
  rcases h : c.connections with _ | conns
  · simp [connectionErrors, h]
  · simp only [connectionErrors, h, Option.getD_some]
    exact withIndex_isEmpty connErrors_isEmpty 0 conns

/-- Per-modulation errors vanish exactly on acceptable modulations. -/
theorem modErrors_isEmpty (i j k : ℕ) (m : Modulation) :
    (modErrors i j k m).isEmpty = modOk m := by
  rcases m with ⟨mt, mc, mv, mtime⟩
  cases mt with
  | none => cases mv <;> cases mtime <;> simp [modErrors, modOk, isEmpty_append]
  | some t =>
    by_cases h1 : t = ""
    · cases mv <;> cases mtime <;> simp [modErrors, modOk, isEmpty_append, h1]
    · by_cases h2 : t = "cc"
      · cases mv <;> cases mtime <;> simp [modErrors, modOk, isEmpty_append, h1, h2]
      · by_cases h3 : t = "pitchBend"
        · cases mv <;> cases mtime <;> simp [modErrors, modOk, isEmpty_append, h1, h2, h3]
        · by_cases h4 : t = "aftertouch"
          · cases mv <;> cases mtime
              <;> simp [modErrors, modOk, isEmpty_append, h1, h2, h3, h4]
          · cases mv <;> cases mtime
              <;> simp [modErrors, modOk, isEmpty_append, h1, h2, h3, h4]

/-- A rational channel annotation is in range iff it is not out of range. -/
theorem decide_channel_range (ch : ℚ) :
    decide (0 ≤ ch ∧ ch ≤ 15) = !decide (ch < 0 ∨ ch > 15) := by
  by_cases h : ch < 0 ∨ ch > 15
  · have h2 : ¬(0 ≤ ch ∧ ch ≤ 15) := by
      rintro ⟨ha, hb2⟩
      rcases h with h | h
      · exact absurd ha (not_le.mpr h)
      · exact absurd hb2 (not_le.mpr h)
    rw [decide_eq_false h2, decide_eq_true h, Bool.not_true]
  · have h1 : 0 ≤ ch := not_lt.mp fun hc => h (Or.inl hc)
    have h2 : ch ≤ 15 := not_lt.mp fun hc => h (Or.inr hc)
    rw [decide_eq_true ⟨h1, h2⟩, decide_eq_false h, Bool.not_false]

/-- Per-note errors vanish exactly on acceptable notes. -/
theorem noteErrors_isEmpty (i j : ℕ) (n : Note) :
    (noteErrors i j n).isEmpty = noteOk n := by
  have hmods : (match n.modulations with
      | some mods => withIndex (modErrors i j) 0 mods
      | none => ([] : List String)).isEmpty
      = (match n.modulations with
         | some mods => mods.all modOk
         | none => true) := by
    rcases n.modulations with _ | mods
    · simp
    · exact withIndex_isEmpty (modErrors_isEmpty i j) 0 mods
  have hch : (match n.channel with
      | some ch => if ch < 0 ∨ ch > 15 then
          ["Sequence " ++ toString i ++ ", Note " ++ toString j ++ ": MIDI channel must be 0-15"]
        else ([] : List String)
      | none => ([] : List String)).isEmpty
      = (match n.channel with
         | some ch => decide (0 ≤ ch ∧ ch ≤ 15)
         | none => true) := by
    rcases n.channel with _ | ch
    · simp
    · dsimp only
      rw [decide_channel_range]
      by_cases h : ch < 0 ∨ ch > 15 <;> simp [h]
  rw [noteErrors, noteOk]
  rw [isEmpty_append, isEmpty_append, isEmpty_append, isEmpty_append]
  rw [hmods, hch]
  cases h1 : n.time <;> cases h2 : noteValFalsy n.note <;> cases h3 : jvalFalsy n.duration
    <;> simp [h1, h2, h3, Bool.and_assoc]

/-- Per-sequence errors vanish exactly on acceptable sequences (the
`synth`/`synthRef` pair plays no role here). -/
theorem seqErrors_isEmpty (i : ℕ) (s : Sequence) :
    (seqErrors i s).isEmpty = seqOk s := by
  have hnotes : (match s.notes with
      | none => ["Sequence " ++ toString i ++ ": Missing or invalid notes array"]
      | some notes => withIndex (noteErrors i) 0 notes).isEmpty
      = (match s.notes with
         | none => false
         | some notes => notes.all noteOk) := by
    rcases s.notes with _ | notes
    · simp
    · exact withIndex_isEmpty (noteErrors_isEmpty i) 0 notes
  have hch : (match s.midiChannel with
      | some ch => if ch < 0 ∨ ch > 15 then
          ["Sequence " ++ toString i ++ ": MIDI channel must be 0-15"]
        else ([] : List String)
      | none => ([] : List String)).isEmpty
      = (match s.midiChannel with
         | some ch => decide (0 ≤ ch ∧ ch ≤ 15)
         | none => true) := by
    rcases s.midiChannel with _ | ch
    · simp
    · dsimp only
      rw [decide_channel_range]
      by_cases h : ch < 0 ∨ ch > 15 <;> simp [h]
  rw [seqErrors, seqOk]
  rw [isEmpty_append, isEmpty_append]
  rw [hnotes, hch]
  cases h1 : strFalsy s.label <;> simp [h1, Bool.and_assoc]

/-- The sequence error block vanishes exactly when the `sequences` array is
present and every sequence is acceptable. -/
theorem sequencesErrors_isEmpty (c : Composition) :
    (sequencesErrors c).isEmpty
      = (match c.sequences with
         | none => false
         | some seqs => seqs.all seqOk) := by
  rcases h : c.sequences with _ | seqs
  · simp [sequencesErrors, h]
  · simp only [sequencesErrors, h]
    exact withIndex_isEmpty seqErrors_isEmpty 0 seqs

/-- Key-signature errors vanish exactly when the field is falsy or matches
the key regex. -/
theorem keySigErrors_isEmpty (c : Composition) :
    (keySigErrors c).isEmpty
      = (match c.keySignature with
         | some k => (k == "") || keySigMatch k
         | none => true) := by
  rcases h : c.keySignature with _ | k
  · simp [keySigErrors, h]
  · by_cases h1 : k = ""
    · simp [keySigErrors, h, h1]
    · by_cases h2 : keySigMatch k <;> simp [keySigErrors, h, h1, h2]

/-- Per-`tempoMap`-entry errors vanish exactly on acceptable entries. -/
theorem tempoEntryErrors_isEmpty (i : ℕ) (e : TempoMapEntry) :
    (tempoEntryErrors i e).isEmpty = tempoEntryOk e := by
  cases h1 : jvalFalsy e.time
    <;> cases h2 : (match e.bpm with
          | none => true
          | some b => b == 0 || b < 20 || b > 400)
    <;> simp [tempoEntryErrors, tempoEntryOk, isEmpty_append, h1, h2]

/-- The `tempoMap` error block vanishes exactly when every entry is
acceptable. -/
theorem tempoMapErrors_isEmpty (c : Composition) :
    (tempoMapErrors c).isEmpty = (c.tempoMap.getD []).all tempoEntryOk := by
  rcases h : c.tempoMap with _ | tm
  · simp [tempoMapErrors, h]
  · simp only [tempoMapErrors, h, Option.getD_some]
    exact withIndex_isEmpty tempoEntryErrors_isEmpty 0 tm

/-- C1 (amended): `validate(x).success` is true iff none of the *code's*
error conditions holds — truthy canonical `format`, truthy `version` and
`bpm`, well-formed graph nodes, two-endpoint connections, a present
`sequences` array whose sequences all pass (truthy label, present notes
array, per-note time/note/duration and channel/modulation checks, sequence
MIDI channel in range), a well-formed key signature and well-formed tempo
map entries.  A sequence missing both `synth` and `synthRef` is only a
warning and does not affect `success`. -/
theorem C1_validate_success_iff (c : Composition) :
    (validate c).success = structurallyValid c := by
  show (formatErrors c ++ versionErrors c ++ bpmErrors c
      ++ graphErrors c ++ connectionErrors c ++ sequencesErrors c
      ++ keySigErrors c ++ tempoMapErrors c).isEmpty = structurallyValid c
  rw [isEmpty_append, isEmpty_append, isEmpty_append, isEmpty_append,
    isEmpty_append, isEmpty_append, isEmpty_append]
  rw [formatErrors_isEmpty, versionErrors_isEmpty, bpmErrors_isEmpty,
    graphErrors_isEmpty, connectionErrors_isEmpty, sequencesErrors_isEmpty,
    keySigErrors_isEmpty, tempoMapErrors_isEmpty]
  rw [structurallyValid]

/-- A composition whose only sequence has neither `synth` nor `synthRef`
(otherwise fully well-formed). -/
def noSynthComposition : Composition :=
  { format := some "jmonTone", version := some "1.0", bpm := some 120,
    keySignature := none, timeSignature := none, metadata := none,
    audioGraph := none, connections := none,
    sequences := some
      [{ label := some "lead", synth := none, synthRef := none,
         notes := some [], midiChannel := none }],
    tempoMap := none }

/-- Counterexample to C1 as stated: `noSynthComposition` violates the
spec's StructuralError list (its sequence misses both `synth` and
`synthRef`), yet `validate` succeeds with an empty error list, demoting the
condition to a warning. -/
theorem C1_counterexample_missing_synth_is_warning :
    (validate noSynthComposition).success = true
    ∧ specStructuralErrorFree noSynthComposition = false
    ∧ (validate noSynthComposition).errors = []
    ∧ (validate noSynthComposition).warnings
        = ["Sequence 0: Missing synth or synthRef definition"] := by
  refine ⟨by decide, by decide, by decide, by decide⟩

end Jmon
